import Mathlib

/-!
Verification development for the MATE document-segmentation pipeline
(`mate_pipeline.py`).  The definitions below are a shallow embedding of the
core of that program: line normalisation, compact-key computation, the
line classifier / state machine, the event post-processor and the interval
builder.  Python strings are Lean `String`s, Python ints are `Nat`
(all page numbers and counters in the source are non-negative), Python
tuples/lists are Lean structures/lists.
-/

namespace Mate

/-- Characters treated as whitespace by Python's `str.strip()` on the
character repertoire of the journal (ASCII whitespace plus NBSP). -/
def wsChars : List Char := [' ', '\t', '\n', '\r', '\x0b', '\x0c', ' ']

def isPyWs (c : Char) : Bool := decide (c ∈ wsChars)

/-- Uppercasing table modelling Python's `str.upper` on the ASCII and
Latin-1 letters that occur in the journal text (other characters are
mapped to themselves). -/
def upperTbl : List (Char × Char) :=
  [('a','A'),('b','B'),('c','C'),('d','D'),('e','E'),('f','F'),('g','G'),
   ('h','H'),('i','I'),('j','J'),('k','K'),('l','L'),('m','M'),('n','N'),
   ('o','O'),('p','P'),('q','Q'),('r','R'),('s','S'),('t','T'),('u','U'),
   ('v','V'),('w','W'),('x','X'),('y','Y'),('z','Z'),
   ('à','À'),('á','Á'),('â','Â'),('ã','Ã'),('ä','Ä'),('ç','Ç'),
   ('è','È'),('é','É'),('ê','Ê'),('ë','Ë'),('ì','Ì'),('í','Í'),
   ('î','Î'),('ï','Ï'),('ñ','Ñ'),('ò','Ò'),('ó','Ó'),('ô','Ô'),
   ('õ','Õ'),('ö','Ö'),('ù','Ù'),('ú','Ú'),('û','Û'),('ü','Ü'),('ý','Ý')]

def pyUpperChar (c : Char) : Char := (upperTbl.lookup c).getD c

def pyUpperStr (s : String) : String := String.mk (s.data.map pyUpperChar)

/-- Table modelling `unicodedata.normalize("NFD", ·)` followed by removal
of combining marks (category `Mn`), on the precomposed Latin letters of
the journal: each accented letter decomposes into its base letter plus a
combining mark, and the mark is dropped. -/
def nfdTbl : List (Char × Char) :=
  [('À','A'),('Á','A'),('Â','A'),('Ã','A'),('Ä','A'),('Ç','C'),
   ('È','E'),('É','E'),('Ê','E'),('Ë','E'),('Ì','I'),('Í','I'),
   ('Î','I'),('Ï','I'),('Ñ','N'),('Ò','O'),('Ó','O'),('Ô','O'),
   ('Õ','O'),('Ö','O'),('Ù','U'),('Ú','U'),('Û','U'),('Ü','U'),('Ý','Y'),
   ('à','a'),('á','a'),('â','a'),('ã','a'),('ä','a'),('ç','c'),
   ('è','e'),('é','e'),('ê','e'),('ë','e'),('ì','i'),('í','i'),
   ('î','i'),('ï','i'),('ñ','n'),('ò','o'),('ó','o'),('ô','o'),
   ('õ','o'),('ö','o'),('ù','u'),('ú','u'),('û','u'),('ü','u'),('ý','y')]

def nfdBase (c : Char) : Char := (nfdTbl.lookup c).getD c

/-- The character class kept by `re.sub(r"[^0-9A-Z]", "", u)`. -/
def isKeyChar (c : Char) : Bool :=
  (('0' ≤ c && c ≤ '9') || ('A' ≤ c && c ≤ 'Z'))

/-- List-level body of `compact_key`: uppercase, strip combining marks,
keep only `[0-9A-Z]`. -/
def compactList (l : List Char) : List Char :=
  ((l.map pyUpperChar).map nfdBase).filter isKeyChar

/-- `compact_key` from `mate_pipeline.py`: uppercase, NFD-decompose and
drop combining marks, remove everything outside `[0-9A-Z]`.  (The
`lru_cache` memoisation is a pure cache and has no semantic content.) -/
def compact_key (s : String) : String := String.mk (compactList s.data)

/-- `l.strip()` for Python strings, at the list-of-chars level. -/
def stripList (l : List Char) : List Char :=
  ((l.dropWhile isPyWs).reverse.dropWhile isPyWs).reverse

def pyStrip (s : String) : String := String.mk (stripList s.data)

/-! Line normaliser, topology detector, printed-page recovery and window
matcher from part 3 of `mate_pipeline.py`. -/

def isSpTab (c : Char) : Bool := c == ' ' || c == '\t'

/-- `re.sub(r"[ \t]+", " ", s)`: collapse runs of spaces/tabs to one space. -/
def collapseSpTab : List Char → List Char
  | [] => []
  | [c] => if isSpTab c then [' '] else [c]
  | c :: d :: rest =>
    if isSpTab c && isSpTab d then collapseSpTab (d :: rest)
    else (if isSpTab c then ' ' else c) :: collapseSpTab (d :: rest)

/-- `limpa_linha`: replace NBSP by space, collapse `[ \t]+`, strip. -/
def limpa_linha (s : String) : String :=
  String.mk (stripList (collapseSpTab (s.data.map (fun c => if c = ' ' then ' ' else c))))

/-- Substring test (`re.search` of a literal pattern): `pat` occurs somewhere
in `hay`. -/
def contemSub (pat : List Char) : List Char → Bool
  | [] => pat.isPrefixOf []
  | c :: t => pat.isPrefixOf (c :: t) || contemSub pat t

/-- `\w` of Python `re` on the journal's repertoire: ASCII alphanumerics,
underscore and the Latin-1 letters (including ª, µ, º). -/
def wordChar (c : Char) : Bool :=
  c.isAlphanum || c == '_' || c == 'ª' || c == 'µ' || c == 'º' ||
  (0xC0 ≤ c.toNat && c.toNat ≤ 0xFF && c != '×' && c != '÷')

def digitosParaNat (l : List Char) : Nat :=
  l.foldl (fun a c => a * 10 + (c.toNat - 48)) 0

/-- Try to match `P[ÁA]GINA\s+(\d{1,4})\b` (case-insensitive) at the start of
`l`; the caller guarantees the `\b` before the `P`. -/
def tentaPagina (l : List Char) : Option Nat :=
  match l with
  | p :: a :: g :: i :: n :: a2 :: rest =>
    if (p = 'P' ∨ p = 'p') ∧ (a = 'Á' ∨ a = 'á' ∨ a = 'A' ∨ a = 'a') ∧
       (g = 'G' ∨ g = 'g') ∧ (i = 'I' ∨ i = 'i') ∧ (n = 'N' ∨ n = 'n') ∧
       (a2 = 'A' ∨ a2 = 'a') then
      let rest1 := rest.dropWhile isPyWs
      if rest1.length = rest.length then none
      else
        let ds := rest1.takeWhile Char.isDigit
        let rest2 := rest1.dropWhile Char.isDigit
        if 1 ≤ ds.length ∧ ds.length ≤ 4 ∧
           (match rest2 with | [] => true | c :: _ => !wordChar c) = true then
          some (digitosParaNat ds)
        else none
    else none
  | _ => none

/-- Leftmost search of `\bP[ÁA]GINA\s+(\d{1,4})\b` (the `RE_PAG` pattern);
`prevW` records whether the previous character was a word character. -/
def buscaPagina (prevW : Bool) : List Char → Option Nat
  | [] => none
  | c :: rest =>
    match (if prevW then none else tentaPagina (c :: rest)) with
    | some n => some n
    | none => buscaPagina (wordChar c) rest

/-- `primeira_pagina_num`: printed page number from the first `RE_PAG` match
in the first 220 lines, else the fallback (physical index). -/
def primeira_pagina_num (linhas : List String) (fallback : Nat) : Nat :=
  match (linhas.take 220).findSome? (fun ln => buscaPagina false ln.data) with
  | some n => n
  | none => fallback

/-- The literal alternatives of `RE_HEADER_LIXO`, pre-uppercased (the regex is
case-insensitive and is applied to already whitespace-collapsed lines). -/
def headerPatterns : List String :=
  ["DIÁRIO DO LEGISLATIVO", "DIARIO DO LEGISLATIVO", "WWW.ALMG.GOV.BR",
   "SEGUNDA-FEIRA", "TERAA-FEIRA", "TERÇA-FEIRA", "QUARTA-FEIRA",
   "QUINTA-FEIRA", "SEXTA-FEIRA", "SABADO", "SÁBADO", "DOMINGO"]

def re_header_lixo (s : String) : Bool :=
  let u := s.data.map pyUpperChar
  headerPatterns.any (fun p => contemSub p.data u) || (buscaPagina false u).isSome

/-- Character class of `re.fullmatch(r"[-–—_•\.\s]+", s)`. -/
def isPontuacao (c : Char) : Bool :=
  c == '-' || c == '–' || c == '—' || c == '_' || c == '•' || c == '.' || isPyWs c

/-- Character class of `re.search(r"[A-Za-zÀ-ÿ0-9]", s)`. -/
def isLetraOuDigito (c : Char) : Bool :=
  ('A' ≤ c && c ≤ 'Z') || ('a' ≤ c && c ≤ 'z') || ('0' ≤ c && c ≤ '9') ||
  (0xC0 ≤ c.toNat && c.toNat ≤ 0xFF)

/-- `_linha_relevante`. -/
def linha_relevante (s : String) : Bool :=
  let t := limpa_linha s
  if t = "" then false
  else if re_header_lixo t then false
  else if !t.data.isEmpty && t.data.all isPontuacao then false
  else t.data.any isLetraOuDigito

/-- `is_top_event`: no relevant line strictly before index `li` on the page. -/
def is_top_event (li : Nat) (linhas : List String) : Bool :=
  (linhas.take li).all (fun prev => !linha_relevante prev)

/-- `win_keys` at the list level: compact keys of lines `i .. i+w-1` that
exist, concatenated. -/
def winKeysList (linhas : List String) (i : Nat) : Nat → List Char
  | 0 => []
  | w + 1 =>
    (match linhas.get? i with
     | some l => compactList l.data
     | none => []) ++ winKeysList linhas (i + 1) w

def win_keys (linhas : List String) (i w : Nat) : String :=
  String.mk (winKeysList linhas i w)

/-- Python `str.startswith`. -/
def comecaCom (s p : String) : Bool := p.data.isPrefixOf s.data

/-! The classifier / state machine (part 3 of `mate_pipeline.py`). -/

inductive Tipo where
  | CUT : Tipo
  | OUT : Tipo
deriving DecidableEq

/-- One entry of the `eventos` list:
`(pag, ordem, tipo, label_out, fim_sobreposto, top_flag)`. -/
structure Evento where
  pag : Nat
  ordem : Nat
  tipo : Tipo
  label : Option String
  fimSobreposto : Bool
  topFlag : Bool
deriving DecidableEq

def C_TRAMITACAO : String := "TRAMITACAODEPROPOSICOES"
def C_RECEBIMENTO : String := "RECEBIMENTODEPROPOSICOES"
def C_APRESENTACAO : String := "APRESENTACAODEPROPOSICOES"
def C_ATA : String := "ATA"
def C_ATAS : String := "ATAS"
def C_MATERIA_ADM : String := "MATERIAADMINISTRATIVA"
def C_QUESTAO_ORDEM : String := "QUESTAODEORDEM"
def CUT_KEYS : List String := [C_ATA, C_ATAS, C_MATERIA_ADM, C_QUESTAO_ORDEM]
def C_CORRESP_CAB : String := "CORRESPONDENCIADESPACHADAPELO1SECRETARIO"
def C_OFICIOS : String := "OFICIOS"
def MANIF_KEYS : List String := ["MANIFESTACAO", "MANIFESTACOES"]
def REQ_APROV_KEYS : List String := ["REQUERIMENTOAPROVADO", "REQUERIMENTOSAPROVADOS"]
def C_PROPOSICOES_DE_LEI : String := "PROPOSICOESDELEI"
def C_RESOLUCAO : String := "RESOLUCAO"
def ERRATA_KEYS : List String := ["ERRATA", "ERRATAS"]
def EMENDAS_KEYS : List String :=
  ["RECEBIMENTODEEMENDASESUBSTITUTIVO", "RECEBIMENTODEEMENDASESUBSTITUTIVOS",
   "RECEBIMENTODEEMENDA"]
def C_LEITURA_COMUNICACOES : String := "LEITURADECOMUNICACOES"
def C_DESPACHO_REQUERIMENTOS : String := "DESPACHODEREQUERIMENTOS"
def C_DECISAO_PRESIDENCIA : String := "DECISAODAPRESIDENCIA"
def C_ACORDO_LIDERES : String := "ACORDODELIDERES"
def C_COMUNIC_PRESIDENCIA : String := "COMUNICACAODAPRESIDENCIA"
def C_PROPOSICOES_NAO_RECEBIDAS : String := "PROPOSICOESNAORECEBIDAS"
def C_REQUERIMENTOS : String := "REQUERIMENTOS"
def C_PROJETO_DE_LEI : String := "PROJETODELEI"
def C_PROJETOS_DE_LEI : String := "PROJETOSDELEI"
def MAX_PAG_LEIS : Nat := 40

def prefixo_tramitacao (label : String) (in_tramitacao : Bool) : String :=
  if in_tramitacao then "TRAMITAÇÃO DE PROPOSIÇÕES: " ++ label else label

def label_apresentacao (tipo_bloco : String) (in_tramitacao : Bool) : String :=
  if tipo_bloco = "PL" then
    prefixo_tramitacao "APRESENTAÇÃO DE PROPOSIÇÕES: PROJETOS DE LEI" in_tramitacao
  else
    prefixo_tramitacao "APRESENTAÇÃO DE PROPOSIÇÕES: REQUERIMENTOS" in_tramitacao

/-- The classifier's mutable state together with the event accumulator and
the `ordem` counter. -/
structure Maquina where
  in_tramitacao : Bool
  sub_tramitacao : Option String
  apresentacao_ativa : Bool
  sub_apresentacao : Option String
  viu_corresp_cab : Bool
  pegou_leis : Bool
  ordem : Nat
  eventos : List Evento
deriving DecidableEq

def maquinaInicial : Maquina := ⟨false, none, false, none, false, false, 0, []⟩

/-- `ordem += 1; eventos.append((pag, ordem, tipo, label, sobre, top))`. -/
def emite (m : Maquina) (pag : Nat) (tipo : Tipo) (label : Option String)
    (sobre top : Bool) : Maquina :=
  { m with ordem := m.ordem + 1,
           eventos := m.eventos ++ [⟨pag, m.ordem + 1, tipo, label, sobre, top⟩] }

/-- The context reset performed by the CUT branches and the terminal OUT
branches. -/
def limpaContextos (m : Maquina) : Maquina :=
  { m with in_tramitacao := false, sub_tramitacao := none,
           apresentacao_ativa := false, sub_apresentacao := none,
           viu_corresp_cab := false }

/-- The tail of the per-line cascade, from the CORRESPONDÊNCIA header check
onward (the caller has already applied the implicit apresentação close). -/
def restoCascata (m : Maquina) (pag : Nat) (c lnUp k1 k2 k3 : String)
    (top : Bool) : Maquina :=
  if c = C_CORRESP_CAB then { m with viu_corresp_cab := true }
  else if m.viu_corresp_cab ∧ c = C_OFICIOS then
    limpaContextos (emite m pag Tipo.OUT (some "CORRESPONDÊNCIA: OFÍCIOS") true top)
  else if m.apresentacao_ativa ∧
      (comecaCom k1 C_PROJETO_DE_LEI ∨ comecaCom k1 C_PROJETOS_DE_LEI ∨
       comecaCom k2 C_PROJETO_DE_LEI ∨ comecaCom k2 C_PROJETOS_DE_LEI ∨
       comecaCom k3 C_PROJETO_DE_LEI ∨ comecaCom k3 C_PROJETOS_DE_LEI) then
    (if m.sub_apresentacao ≠ some "PL" then
      { emite m pag Tipo.OUT (some (label_apresentacao "PL" m.in_tramitacao)) true top with
          sub_apresentacao := some "PL" }
    else m)
  else if m.apresentacao_ativa ∧
      (comecaCom k1 C_REQUERIMENTOS ∨ comecaCom k2 C_REQUERIMENTOS ∨
       comecaCom k3 C_REQUERIMENTOS) then
    (if m.sub_apresentacao ≠ some "REQ" then
      { emite m pag Tipo.OUT (some (label_apresentacao "REQ" m.in_tramitacao)) true top with
          sub_apresentacao := some "REQ" }
    else m)
  else if c = C_OFICIOS then
    limpaContextos (emite m pag Tipo.OUT (some "OFÍCIOS") true top)
  else if ¬ m.pegou_leis ∧ pag ≤ MAX_PAG_LEIS ∧ (lnUp = "LEI" ∨ lnUp = "LEIS") then
    limpaContextos { emite m pag Tipo.OUT (some "LEIS PROMULGADAS") true top with
      pegou_leis := true }
  else if c ∈ MANIF_KEYS then
    limpaContextos (emite m pag Tipo.OUT (some "MANIFESTAÇÕES") true top)
  else if c ∈ REQ_APROV_KEYS then
    limpaContextos (emite m pag Tipo.OUT (some "REQUERIMENTOS APROVADOS") true top)
  else if c = C_PROPOSICOES_DE_LEI then
    limpaContextos (emite m pag Tipo.OUT (some "PROPOSIÇÕES DE LEI") true top)
  else if c = C_RESOLUCAO then
    limpaContextos (emite m pag Tipo.OUT (some "RESOLUÇÃO") true top)
  else if c ∈ ERRATA_KEYS then
    limpaContextos (emite m pag Tipo.OUT (some "ERRATAS") true top)
  else if c ∈ EMENDAS_KEYS then
    limpaContextos (emite m pag Tipo.OUT (some "EMENDAS OU SUBSTITUTIVOS PUBLICADOS") true top)
  else if c = C_ACORDO_LIDERES then
    limpaContextos (emite m pag Tipo.OUT (some "ACORDO DE LÍDERES") true top)
  else if c = C_COMUNIC_PRESIDENCIA then
    limpaContextos (emite m pag Tipo.OUT
      (some (prefixo_tramitacao "COMUNICAÇÃO DA PRESIDÊNCIA" m.in_tramitacao)) true top)
  else if c = C_LEITURA_COMUNICACOES then
    limpaContextos (emite m pag Tipo.OUT (some "LEITURA DE COMUNICAÇÕES") true top)
  else if c = C_DESPACHO_REQUERIMENTOS then
    limpaContextos (emite m pag Tipo.OUT (some "DESPACHO DE REQUERIMENTOS") true top)
  else if c = C_DECISAO_PRESIDENCIA then
    limpaContextos (emite m pag Tipo.OUT (some "DECISÃO DA PRESIDÊNCIA") true top)
  else if c = C_PROPOSICOES_NAO_RECEBIDAS then
    limpaContextos (emite m pag Tipo.OUT (some "PROPOSIÇÕES NÃO RECEBIDAS") true top)
  else m

/-- Processing of one line of one page: the full `for li, ln in
enumerate(linhas)` body. -/
def stepLinha (m : Maquina) (pag : Nat) (linhas : List String) (li : Nat) : Maquina :=
  let ln := linhas.getD li ""
  let lnUp := pyStrip (pyUpperStr ln)
  let c := compact_key ln
  let top := is_top_event li linhas
  if c ∈ CUT_KEYS then limpaContextos (emite m pag Tipo.CUT none false top)
  else if comecaCom c "PARECER" then limpaContextos (emite m pag Tipo.CUT none false top)
  else if c = C_TRAMITACAO then
    { emite m pag Tipo.CUT none false top with
        in_tramitacao := true, sub_tramitacao := none,
        apresentacao_ativa := false, sub_apresentacao := none,
        viu_corresp_cab := false }
  else if m.in_tramitacao ∧ (c = C_RECEBIMENTO ∨ c = C_APRESENTACAO) then
    { emite m pag Tipo.CUT none false top with
        sub_tramitacao := some c, apresentacao_ativa := (c == C_APRESENTACAO),
        sub_apresentacao := none, viu_corresp_cab := false }
  else if (¬ m.in_tramitacao) ∧ c = C_APRESENTACAO then
    { m with apresentacao_ativa := true, sub_apresentacao := none }
  else
    restoCascata
      (if m.apresentacao_ativa ∧
          (c = C_TRAMITACAO ∨ c = C_ATA ∨ c = C_ATAS ∨ c = C_MATERIA_ADM) then
        { m with apresentacao_ativa := false, sub_apresentacao := none }
      else m)
      pag c lnUp (win_keys linhas li 1) (win_keys linhas li 2) (win_keys linhas li 3) top

/-- One physical page: clean and filter the raw lines, recover the printed
page number, run the classifier over each line. -/
def processaPagina (m : Maquina) (physIdx : Nat) (rawLines : List String) : Maquina :=
  let linhas := (rawLines.map limpa_linha).filter (fun l => l ≠ "")
  let pag := primeira_pagina_num linhas (physIdx + 1)
  (List.range linhas.length).foldl (fun acc li => stepLinha acc pag linhas li) m

/-- The raw event stream of a document (a list of pages, each a list of raw
extracted lines). -/
def eventos (doc : List (List String)) : List Evento :=
  (doc.enum.foldl (fun acc p => processaPagina acc p.1 p.2) maquinaInicial).eventos

/-! Post-processing (same-page OUT dedup) and interval building
(parts 3.x and 4 of `mate_pipeline.py`). -/

/-- Stable sort of the event list by `(pag, ordem)`, modelling
`eventos.sort(key=lambda x: (x[0], x[1]))` (insertion after all
less-or-equal keys keeps the sort stable). -/
def chaveLe (a b : Evento) : Bool :=
  a.pag < b.pag || (a.pag == b.pag && a.ordem ≤ b.ordem)

def insereOrdenado (l : List Evento) (e : Evento) : List Evento :=
  match l with
  | [] => [e]
  | y :: t => if chaveLe y e then y :: insereOrdenado t e else e :: y :: t

def ordenaEventos (evs : List Evento) : List Evento :=
  evs.foldl insereOrdenado []

def KEEP_DUP_OUT : List String := ["DECISÃO DA PRESIDÊNCIA"]

/-- `label_out in KEEP_DUP_OUT` (Python membership; `None` is never in the
set). -/
def rotuloPermitido (label : Option String) : Bool :=
  match label with
  | some l => KEEP_DUP_OUT.contains l
  | none => false

/-- One `_last_idx[key] = i` assignment of the post-processor's first pass
(skipping CUT events and allow-listed labels). -/
def passoIdx (acc : List ((Nat × Option String) × Nat)) (p : Nat × Evento) :
    List ((Nat × Option String) × Nat) :=
  if p.2.tipo = Tipo.OUT ∧ rotuloPermitido p.2.label = false then
    ((p.2.pag, p.2.label), p.1) :: acc
  else acc

/-- The `_last_idx` dictionary: for every non-allow-listed OUT event, map its
`(page, label)` key to its index (later assignments overwrite earlier ones;
the assoc list is consed so that `lookup` finds the most recent write). -/
def lastIdxFold (evs : List Evento) : List ((Nat × Option String) × Nat) :=
  evs.enum.foldl passoIdx []

/-- The `_eventos_filtrados` pass: drop a non-allow-listed OUT event whose
index is not the last one recorded for its `(page, label)` key. -/
def filtraDuplicados (evs : List Evento) : List Evento :=
  evs.enum.filterMap
    (fun p =>
      if p.2.tipo = Tipo.OUT ∧ rotuloPermitido p.2.label = false then
        (if ((lastIdxFold evs).lookup (p.2.pag, p.2.label)).getD p.1 ≠ p.1 then none
         else some p.2)
      else some p.2)

/-- The closing-page computation of the interval builder, including the final
defensive clamp `if pag_fim < pag_ini: pag_fim = pag_ini`. -/
def pagFimOf (pagIni : Nat) (sobre : Bool) (prox : Option Evento) (total : Nat) : Nat :=
  let fim :=
    match prox with
    | none => total
    | some p =>
      if p.pag = pagIni then pagIni
      else if p.topFlag then p.pag - 1
      else if sobre then p.pag else p.pag - 1
  if fim < pagIni then pagIni else fim

def intervaloStr (ini fim : Nat) : String :=
  if ini ≠ fim then toString ini ++ " - " ++ toString fim else toString ini

/-- Python membership `label_out in S` for an optional label. -/
def rotuloEm (label : Option String) (s : List String) : Bool :=
  match label with
  | some l => s.contains l
  | none => false

def DEDUP_ULTIMO_NA_PAG : List String := ["MANIFESTAÇÕES"]

def NAO_DEDUPLICAR : List String := ["DECISÃO DA PRESIDÊNCIA"]

/-- Appending one `(intervalo, label)` row to `itens`, with the
collapse-to-last rule for the labels of `DEDUP_ULTIMO_NA_PAG`. -/
def anexaItem (itens : List (String × Option String)) (intervalo : String)
    (label : Option String) : List (String × Option String) :=
  if rotuloEm label DEDUP_ULTIMO_NA_PAG ∧ rotuloEm label NAO_DEDUPLICAR = false then
    match itens.getLast? with
    | some ultimo =>
      if ultimo.2 = label then itens.dropLast ++ [(intervalo, label)]
      else itens ++ [(intervalo, label)]
    | none => itens ++ [(intervalo, label)]
  else itens ++ [(intervalo, label)]

/-- Walk the deduplicated event list; each OUT event produces one row, CUT
events only serve as closing boundaries (`prox`). -/
def construirItens : List Evento → Nat → List (String × Option String) →
    List (String × Option String)
  | [], _, itens => itens
  | e :: rest, total, itens =>
    if e.tipo = Tipo.OUT then
      construirItens rest total
        (anexaItem itens (intervaloStr e.pag (pagFimOf e.pag e.fimSobreposto rest.head? total)) e.label)
    else construirItens rest total itens

def intervalos (evs : List Evento) (total : Nat) : List (String × Option String) :=
  construirItens evs total []

/-- The full core pipeline: classifier, sort, same-page dedup, interval
builder.  `total_pag_fisica` is the number of physical pages. -/
def saida (doc : List (List String)) : List (String × Option String) :=
  intervalos (filtraDuplicados (ordenaEventos (eventos doc))) doc.length

/-! Claim-side definitions: statements of the specification written in the
spec's own words, to be compared with the source-derived functions above. -/

/-- C1, written from the claim's words: no successor gives the total physical
page count; a successor on the same printed page closes at the start page; a
successor on a later page that is top-of-page closes one page earlier;
otherwise the overlap flag decides between the successor's page and one page
earlier; finally an end page below the start page is raised to the start
page. -/
def pagFimClaim (pagIni : Nat) (sobre : Bool) (prox : Option Evento) (total : Nat) : Nat :=
  let fim :=
    match prox with
    | none => total
    | some p =>
      if p.pag = pagIni then pagIni
      else if pagIni < p.pag ∧ p.topFlag then p.pag - 1
      else if sobre then p.pag else p.pag - 1
  if fim < pagIni then pagIni else fim

/-- C3's drop condition, written from the claim's words: another OUT event
with the same `(page, label)` pair appears later in the list. -/
def temDuplicataPosterior (evs : List Evento) (i : Nat) (e : Evento) : Bool :=
  (evs.drop (i + 1)).any
    (fun e2 => (e2.tipo == Tipo.OUT) && (e2.pag == e.pag) && (e2.label == e.label))

/-- C3, written from the claim's words: drop an OUT event exactly when its
label is outside the allow-list and a later OUT event carries the same
`(page, label)` pair; everything else survives, in order. -/
def dedupSpec (evs : List Evento) : List Evento :=
  evs.enum.filterMap
    (fun p =>
      if p.2.tipo = Tipo.OUT ∧ rotuloPermitido p.2.label = false ∧
         temDuplicataPosterior evs p.1 p.2 = true then none
      else some p.2)

/-- An event that the `_last_idx` dictionary records under key `k`. -/
def casaChave (e : Evento) (k : Nat × Option String) : Bool :=
  (e.tipo == Tipo.OUT) && !rotuloPermitido e.label && ((e.pag, e.label) == k)

/-- Position of the last event matching key `k`, if any (proof-side
characterisation of the `_last_idx` dictionary). -/
def posUltimo (k : Nat × Option String) : List Evento → Option Nat
  | [] => none
  | e :: t =>
    match posUltimo k t with
    | some d => some (d + 1)
    | none => if casaChave e k then some 0 else none

/-- C9's comparison point: `stepLinha` with the implicit apresentação close
(source lines 681-684) deleted. -/
def stepLinhaSemFecho (m : Maquina) (pag : Nat) (linhas : List String) (li : Nat) : Maquina :=
  let ln := linhas.getD li ""
  let lnUp := pyStrip (pyUpperStr ln)
  let c := compact_key ln
  let top := is_top_event li linhas
  if c ∈ CUT_KEYS then limpaContextos (emite m pag Tipo.CUT none false top)
  else if comecaCom c "PARECER" then limpaContextos (emite m pag Tipo.CUT none false top)
  else if c = C_TRAMITACAO then
    { emite m pag Tipo.CUT none false top with
        in_tramitacao := true, sub_tramitacao := none,
        apresentacao_ativa := false, sub_apresentacao := none,
        viu_corresp_cab := false }
  else if m.in_tramitacao ∧ (c = C_RECEBIMENTO ∨ c = C_APRESENTACAO) then
    { emite m pag Tipo.CUT none false top with
        sub_tramitacao := some c, apresentacao_ativa := (c == C_APRESENTACAO),
        sub_apresentacao := none, viu_corresp_cab := false }
  else if (¬ m.in_tramitacao) ∧ c = C_APRESENTACAO then
    { m with apresentacao_ativa := true, sub_apresentacao := none }
  else
    restoCascata m
      pag c lnUp (win_keys linhas li 1) (win_keys linhas li 2) (win_keys linhas li 3) top

/-- The labels of the APRESENTAÇÃO-subtype OUT events (step 8 of the
cascade), with and without the TRAMITAÇÃO prefix. -/
def rotulosApresentacao : List (Option String) :=
  [some (label_apresentacao "PL" true), some (label_apresentacao "PL" false),
   some (label_apresentacao "REQ" true), some (label_apresentacao "REQ" false)]

/-- Recogniser for the one-shot "LEIS PROMULGADAS" OUT events (C6). -/
def ehLeis (e : Evento) : Bool := e.label == some "LEIS PROMULGADAS"

/-! Helper lemmas about the character tables and `compact_key`. -/

theorem lookup_mem {l : List (Char × Char)} {c v : Char}
    (h : l.lookup c = some v) : (c, v) ∈ l := by
  induction l with
  | nil => simp [List.lookup] at h
  | cons p t ih =>
    obtain ⟨k, w⟩ := p
    rw [List.lookup_cons] at h
    by_cases hc : c == k
    · simp [hc] at h
      subst h
      simp at hc
      subst hc
      exact List.mem_cons_self _ _
    · simp [hc] at h
      exact List.mem_cons_of_mem _ (ih h)

theorem upperTbl_values_fixed : ∀ p ∈ upperTbl, upperTbl.lookup p.2 = none := by decide

theorem upperTbl_keys_not_key : ∀ p ∈ upperTbl, isKeyChar p.1 = false := by decide

theorem nfdTbl_keys_not_key : ∀ p ∈ nfdTbl, isKeyChar p.1 = false := by decide

theorem pyUpperChar_idem (c : Char) : pyUpperChar (pyUpperChar c) = pyUpperChar c := by
  unfold pyUpperChar
  cases h : upperTbl.lookup c with
  | none => simp [h]
  | some v =>
    have hv := upperTbl_values_fixed _ (lookup_mem h)
    simp [h, hv]

theorem pyUpperChar_of_key {c : Char} (h : isKeyChar c = true) : pyUpperChar c = c := by
  unfold pyUpperChar
  cases hl : upperTbl.lookup c with
  | none => simp
  | some v =>
    have := upperTbl_keys_not_key _ (lookup_mem hl)
    simp_all

theorem nfdBase_of_key {c : Char} (h : isKeyChar c = true) : nfdBase c = c := by
  unfold nfdBase
  cases hl : nfdTbl.lookup c with
  | none => simp
  | some v =>
    have := nfdTbl_keys_not_key _ (lookup_mem hl)
    simp_all

theorem ws_inert {c : Char} (h : isPyWs c = true) :
    pyUpperChar c = c ∧ nfdBase c = c ∧ isKeyChar c = false := by
  simp only [isPyWs, wsChars, decide_eq_true_eq, List.mem_cons,
    List.not_mem_nil, or_false] at h
  rcases h with rfl | rfl | rfl | rfl | rfl | rfl | rfl <;> exact ⟨by decide, by decide, by decide⟩

theorem compactList_append (a b : List Char) :
    compactList (a ++ b) = compactList a ++ compactList b := by
  simp [compactList, List.filter_append]

theorem map_upper_idem (l : List Char) :
    (l.map pyUpperChar).map pyUpperChar = l.map pyUpperChar := by
  rw [List.map_map]
  exact List.map_congr_left (fun c _ => pyUpperChar_idem c)

theorem compactList_upper (l : List Char) :
    compactList (l.map pyUpperChar) = compactList l := by
  unfold compactList
  rw [map_upper_idem]

theorem compactList_ws_elems {l : List Char} (h : ∀ c ∈ l, isPyWs c = true) :
    compactList l = [] := by
  unfold compactList
  rw [List.filter_eq_nil_iff]
  intro a ha
  rw [List.map_map, List.mem_map] at ha
  obtain ⟨c, hc, rfl⟩ := ha
  obtain ⟨h1, h2, h3⟩ := ws_inert (h c hc)
  simp [Function.comp, h1, h2, h3]

theorem compactList_dropWhile_ws (l : List Char) :
    compactList (l.dropWhile isPyWs) = compactList l := by
  conv_rhs => rw [← List.takeWhile_append_dropWhile (p := isPyWs) (l := l)]
  rw [compactList_append,
    compactList_ws_elems (fun c hc => List.mem_takeWhile_imp hc)]
  simp

theorem compactList_reverse (l : List Char) :
    compactList l.reverse = (compactList l).reverse := by
  simp [compactList, List.map_reverse, List.filter_reverse]

theorem compactList_strip (l : List Char) :
    compactList (stripList l) = compactList l := by
  unfold stripList
  rw [compactList_reverse, compactList_dropWhile_ws, compactList_reverse,
    List.reverse_reverse, compactList_dropWhile_ws]

theorem compactList_key_chars {c : Char} {l : List Char} (h : c ∈ compactList l) :
    isKeyChar c = true := (List.mem_filter.mp h).2

theorem compactList_idem (l : List Char) :
    compactList (compactList l) = compactList l := by
  have h1 : (compactList l).map pyUpperChar = compactList l := by
    have := List.map_congr_left (l := compactList l) (f := pyUpperChar) (g := id)
      (fun c hc => pyUpperChar_of_key (compactList_key_chars hc))
    simpa using this
  have h2 : (compactList l).map nfdBase = compactList l := by
    have := List.map_congr_left (l := compactList l) (f := nfdBase) (g := id)
      (fun c hc => nfdBase_of_key (compactList_key_chars hc))
    simpa using this
  have h3 : (compactList l).filter isKeyChar = compactList l :=
    List.filter_eq_self.mpr (fun c hc => compactList_key_chars hc)
  have hdef : compactList (compactList l)
      = (((compactList l).map pyUpperChar).map nfdBase).filter isKeyChar := rfl
  rw [hdef, h1, h2, h3]

theorem compact_key_upper (s : String) : compact_key (pyUpperStr s) = compact_key s := by
  simp [compact_key, pyUpperStr, compactList_upper]

theorem compact_key_strip_upper (s : String) :
    compact_key (pyStrip (pyUpperStr s)) = compact_key s := by
  simp [compact_key, pyStrip, pyUpperStr, compactList_strip, compactList_upper]

theorem compact_key_idem (s : String) : compact_key (compact_key s) = compact_key s := by
  simp [compact_key, compactList_idem]


/-! Theorems for the individual claims. -/

/-- C1: for every deduplicated event list and total physical page count, the
Interval Builder's end-page computation agrees, case by case, with the rule
stated in the claim: no successor gives `total_physical_pages`; a successor
on the same printed page gives the start page; a successor on a later page
flagged top-of-page gives that page minus one; otherwise the overlap flag
chooses between the successor's page and that page minus one; and an end
page below the start page is raised to the start page. -/
theorem claim_C1 (pagIni : Nat) (sobre : Bool) (prox : Option Evento) (total : Nat) :
    pagFimOf pagIni sobre prox total = pagFimClaim pagIni sobre prox total := by
  cases prox with
  | none => rfl
  | some p =>
    simp only [pagFimOf, pagFimClaim]
    cases htop : p.topFlag <;> cases sobre <;> split_ifs <;> simp_all <;> omega

/-- C4 (amended): every computed interval satisfies `page_start ≤ page_end`
(the defensive clamp guarantees it), and the final event -- the one with no
successor -- closes at `max total_physical_pages page_start`, which equals
`total_physical_pages` exactly when the printed start page does not exceed
the physical page count. -/
theorem claim_C4_amended (pagIni : Nat) (sobre : Bool) (prox : Option Evento) (total : Nat) :
    pagIni ≤ pagFimOf pagIni sobre prox total ∧
    pagFimOf pagIni sobre none total = max total pagIni := by
  constructor
  · cases prox with
    | none => simp only [pagFimOf]; split_ifs <;> omega
    | some p => simp only [pagFimOf]; split_ifs <;> omega
  · simp only [pagFimOf]; split_ifs <;> omega

/-- C4 (counterexample): a one-page document whose header advertises printed
page 7 produces a final OUT event on printed page 7; the interval builder
closes it at page 7, not at `total_physical_pages = 1`, so "the final
event's `page_end == total_physical_pages`" fails on this document. -/
theorem claim_C4_counterexample :
    eventos [["PÁGINA 7", "OFÍCIOS"]] = [⟨7, 1, Tipo.OUT, some "OFÍCIOS", true, true⟩] ∧
    saida [["PÁGINA 7", "OFÍCIOS"]] = [("7", some "OFÍCIOS")] ∧
    pagFimOf 7 true none 1 = 7 ∧ (7 : Nat) ≠ 1 :=
  ⟨by decide, by decide, by decide, by decide⟩

/-- C5 (counterexample): on the document of Scenario A taken literally (the
bare line "APRESENTAÇÃO" and "OFÍCIOS" opening page 6 of a six-page
document), the pipeline emits only `("6", OFÍCIOS)`: the bare word
"APRESENTAÇÃO" does not match the `APRESENTACAODEPROPOSICOES` key, so no
apresentação context is entered, and the OFÍCIOS interval starts (and ends)
on page 6, not 5. -/
theorem claim_C5_counterexample :
    saida [[], [], [], [],
      ["TRAMITAÇÃO DE PROPOSIÇÕES", "APRESENTAÇÃO", "PROJETOS DE LEI",
       "texto qualquer", "REQUERIMENTOS", "texto qualquer"],
      ["OFÍCIOS", "texto qualquer"]] = [("6", some "OFÍCIOS")] ∧
    ([(("6" : String), (some "OFÍCIOS" : Option String))] ≠
      [("5", some "TRAMITAÇÃO DE PROPOSIÇÕES: APRESENTAÇÃO DE PROPOSIÇÕES: PROJETOS DE LEI"),
       ("5", some "TRAMITAÇÃO DE PROPOSIÇÕES: APRESENTAÇÃO DE PROPOSIÇÕES: REQUERIMENTOS"),
       ("5", some "OFÍCIOS")]) :=
  ⟨by decide, by decide⟩

/-- C5 (amended): with the sub-header written in full
("APRESENTAÇÃO DE PROPOSIÇÕES"), the pipeline produces the two
apresentação intervals on page 5 and the OFÍCIOS interval on page 6. -/
theorem claim_C5_amended :
    saida [[], [], [], [],
      ["TRAMITAÇÃO DE PROPOSIÇÕES", "APRESENTAÇÃO DE PROPOSIÇÕES", "PROJETOS DE LEI",
       "texto qualquer", "REQUERIMENTOS", "texto qualquer"],
      ["OFÍCIOS", "texto qualquer"]] =
    [("5", some "TRAMITAÇÃO DE PROPOSIÇÕES: APRESENTAÇÃO DE PROPOSIÇÕES: PROJETOS DE LEI"),
     ("5", some "TRAMITAÇÃO DE PROPOSIÇÕES: APRESENTAÇÃO DE PROPOSIÇÕES: REQUERIMENTOS"),
     ("6", some "OFÍCIOS")] := by decide

/-- C7: `compact_key` is total by construction, returns only characters in
`[0-9A-Z]`, is idempotent, and is insensitive to upper-casing and to
leading/trailing whitespace of its argument. -/
theorem claim_C7 (s : String) :
    (compact_key s).data.all isKeyChar = true ∧
    compact_key (compact_key s) = compact_key s ∧
    compact_key (pyUpperStr s) = compact_key s ∧
    compact_key (pyStrip s) = compact_key s := by
  refine ⟨?_, compact_key_idem s, compact_key_upper s, ?_⟩
  · rw [List.all_eq_true]
    exact fun c hc => compactList_key_chars hc
  · simp [compact_key, pyStrip, compactList_strip]

/-- C8: a run in which the classifier emits no events at all yields the empty
output list (and, the embedding being total, no exception). -/
theorem claim_C8 (doc : List (List String)) (h : eventos doc = []) : saida doc = [] := by
  unfold saida
  rw [h]
  rfl

/-- Witness for C8 on a concrete marker-free document. -/
theorem claim_C8_witness :
    eventos [["texto qualquer"]] = [] ∧ saida [["texto qualquer"]] = [] :=
  ⟨by decide, claim_C8 [["texto qualquer"]] (by decide)⟩

/-- C9: the "implicit apresentação close" branch is unreachable -- every line
whose compact key is the TRAMITAÇÃO, ATA, ATAS or MATÉRIA ADMINISTRATIVA key
is already consumed (with `continue`) by the CUT or TRAMITAÇÃO branches -- so
deleting it leaves the classifier's behaviour unchanged on every input. -/
theorem claim_C9 (m : Maquina) (pag : Nat) (linhas : List String) (li : Nat) :
    stepLinha m pag linhas li = stepLinhaSemFecho m pag linhas li := by
  simp only [stepLinha, stepLinhaSemFecho]
  split_ifs with h1 h2 h3 h4 h5 h6 <;> try rfl
  exfalso
  obtain ⟨-, hc⟩ := h6
  rcases hc with h | h | h | h
  · exact h3 h
  · exact h1 (by rw [h]; simp [CUT_KEYS])
  · exact h1 (by rw [h]; simp [CUT_KEYS])
  · exact h1 (by rw [h]; simp [CUT_KEYS])

/-- Helper for C2: any event emitted by the tail of the cascade other than an
APRESENTAÇÃO-subtype OUT leaves the classifier with both context flags
cleared. -/
theorem rotulo_mem (t : String) (b : Bool) (h : t = "PL" ∨ t = "REQ") :
    some (label_apresentacao t b) ∈ rotulosApresentacao := by
  rcases h with rfl | rfl <;> cases b <;> decide

theorem resto_reset (m : Maquina) (pag : Nat) (c lnUp k1 k2 k3 : String) (top : Bool)
    (e : Evento)
    (hev : (restoCascata m pag c lnUp k1 k2 k3 top).eventos = m.eventos ++ [e])
    (hcase :
      (e.tipo = Tipo.CUT ∧ c ∉ [C_TRAMITACAO, C_RECEBIMENTO, C_APRESENTACAO]) ∨
      (e.tipo = Tipo.OUT ∧ e.label ∉ rotulosApresentacao)) :
    (restoCascata m pag c lnUp k1 k2 k3 top).in_tramitacao = false ∧
    (restoCascata m pag c lnUp k1 k2 k3 top).apresentacao_ativa = false := by
  obtain ⟨r, hq⟩ : ∃ r, restoCascata m pag c lnUp k1 k2 k3 top = r := ⟨_, rfl⟩
  rw [hq] at hev ⊢
  simp only [restoCascata] at hq
  by_cases h1 : c = C_CORRESP_CAB
  · rw [if_pos h1] at hq
    subst hq
    exfalso
    simp at hev
  · rw [if_neg h1] at hq
    by_cases h2 : m.viu_corresp_cab ∧ c = C_OFICIOS
    · rw [if_pos h2] at hq
      subst hq
      exact ⟨rfl, rfl⟩
    · rw [if_neg h2] at hq
      by_cases h3 : m.apresentacao_ativa ∧ (comecaCom k1 C_PROJETO_DE_LEI ∨ comecaCom k1 C_PROJETOS_DE_LEI ∨ comecaCom k2 C_PROJETO_DE_LEI ∨ comecaCom k2 C_PROJETOS_DE_LEI ∨ comecaCom k3 C_PROJETO_DE_LEI ∨ comecaCom k3 C_PROJETOS_DE_LEI)
      · rw [if_pos h3] at hq
        by_cases hs : m.sub_apresentacao ≠ some "PL"
        · rw [if_pos hs] at hq
          subst hq
          exfalso
          simp [emite] at hev
          subst hev
          rcases hcase with ⟨ht, hn⟩ | ⟨ht, hn⟩
          · simp at ht
          · exact hn (rotulo_mem "PL" m.in_tramitacao (Or.inl rfl))
        · rw [if_neg hs] at hq
          subst hq
          exfalso
          simp at hev
      · rw [if_neg h3] at hq
        by_cases h4 : m.apresentacao_ativa ∧ (comecaCom k1 C_REQUERIMENTOS ∨ comecaCom k2 C_REQUERIMENTOS ∨ comecaCom k3 C_REQUERIMENTOS)
        · rw [if_pos h4] at hq
          by_cases hs : m.sub_apresentacao ≠ some "REQ"
          · rw [if_pos hs] at hq
            subst hq
            exfalso
            simp [emite] at hev
            subst hev
            rcases hcase with ⟨ht, hn⟩ | ⟨ht, hn⟩
            · simp at ht
            · exact hn (rotulo_mem "REQ" m.in_tramitacao (Or.inr rfl))
          · rw [if_neg hs] at hq
            subst hq
            exfalso
            simp at hev
        · rw [if_neg h4] at hq
          by_cases h5 : c = C_OFICIOS
          · rw [if_pos h5] at hq
            subst hq
            exact ⟨rfl, rfl⟩
          · rw [if_neg h5] at hq
            by_cases h6 : ¬ m.pegou_leis ∧ pag ≤ MAX_PAG_LEIS ∧ (lnUp = "LEI" ∨ lnUp = "LEIS")
            · rw [if_pos h6] at hq
              subst hq
              exact ⟨rfl, rfl⟩
            · rw [if_neg h6] at hq
              by_cases h7 : c ∈ MANIF_KEYS
              · rw [if_pos h7] at hq
                subst hq
                exact ⟨rfl, rfl⟩
              · rw [if_neg h7] at hq
                by_cases h8 : c ∈ REQ_APROV_KEYS
                · rw [if_pos h8] at hq
                  subst hq
                  exact ⟨rfl, rfl⟩
                · rw [if_neg h8] at hq
                  by_cases h9 : c = C_PROPOSICOES_DE_LEI
                  · rw [if_pos h9] at hq
                    subst hq
                    exact ⟨rfl, rfl⟩
                  · rw [if_neg h9] at hq
                    by_cases h10 : c = C_RESOLUCAO
                    · rw [if_pos h10] at hq
                      subst hq
                      exact ⟨rfl, rfl⟩
                    · rw [if_neg h10] at hq
                      by_cases h11 : c ∈ ERRATA_KEYS
                      · rw [if_pos h11] at hq
                        subst hq
                        exact ⟨rfl, rfl⟩
                      · rw [if_neg h11] at hq
                        by_cases h12 : c ∈ EMENDAS_KEYS
                        · rw [if_pos h12] at hq
                          subst hq
                          exact ⟨rfl, rfl⟩
                        · rw [if_neg h12] at hq
                          by_cases h13 : c = C_ACORDO_LIDERES
                          · rw [if_pos h13] at hq
                            subst hq
                            exact ⟨rfl, rfl⟩
                          · rw [if_neg h13] at hq
                            by_cases h14 : c = C_COMUNIC_PRESIDENCIA
                            · rw [if_pos h14] at hq
                              subst hq
                              exact ⟨rfl, rfl⟩
                            · rw [if_neg h14] at hq
                              by_cases h15 : c = C_LEITURA_COMUNICACOES
                              · rw [if_pos h15] at hq
                                subst hq
                                exact ⟨rfl, rfl⟩
                              · rw [if_neg h15] at hq
                                by_cases h16 : c = C_DESPACHO_REQUERIMENTOS
                                · rw [if_pos h16] at hq
                                  subst hq
                                  exact ⟨rfl, rfl⟩
                                · rw [if_neg h16] at hq
                                  by_cases h17 : c = C_DECISAO_PRESIDENCIA
                                  · rw [if_pos h17] at hq
                                    subst hq
                                    exact ⟨rfl, rfl⟩
                                  · rw [if_neg h17] at hq
                                    by_cases h18 : c = C_PROPOSICOES_NAO_RECEBIDAS
                                    · rw [if_pos h18] at hq
                                      subst hq
                                      exact ⟨rfl, rfl⟩
                                    · rw [if_neg h18] at hq
                                      subst hq
                                      exfalso
                                      simp at hev

/-- C2 (amended): after a line that emits a CUT event whose compact key is
not the TRAMITAÇÃO, RECEBIMENTO or APRESENTAÇÃO marker key, or a line that
emits an OUT event other than an APRESENTAÇÃO-subtype event,
`in_tramitacao = false` and `apresentacao_ativa = false`.  (The TRAMITAÇÃO
header's CUT leaves `in_tramitacao = true` and the APRESENTAÇÃO marker's CUT
leaves `apresentacao_ativa = true`, which is what refutes the claim as
stated.) -/
theorem claim_C2_amended (m : Maquina) (pag : Nat) (linhas : List String) (li : Nat)
    (e : Evento)
    (hev : (stepLinha m pag linhas li).eventos = m.eventos ++ [e])
    (hcase :
      (e.tipo = Tipo.CUT ∧
        compact_key (linhas.getD li "") ∉ [C_TRAMITACAO, C_RECEBIMENTO, C_APRESENTACAO]) ∨
      (e.tipo = Tipo.OUT ∧ e.label ∉ rotulosApresentacao)) :
    (stepLinha m pag linhas li).in_tramitacao = false ∧
    (stepLinha m pag linhas li).apresentacao_ativa = false := by
  obtain ⟨r, hq⟩ : ∃ r, stepLinha m pag linhas li = r := ⟨_, rfl⟩
  rw [hq] at hev ⊢
  simp only [stepLinha] at hq
  by_cases g1 : compact_key (linhas.getD li "") ∈ CUT_KEYS
  · rw [if_pos g1] at hq
    subst hq
    exact ⟨rfl, rfl⟩
  · rw [if_neg g1] at hq
    by_cases g2 : comecaCom (compact_key (linhas.getD li "")) "PARECER"
    · rw [if_pos g2] at hq
      subst hq
      exact ⟨rfl, rfl⟩
    · rw [if_neg g2] at hq
      by_cases g3 : compact_key (linhas.getD li "") = C_TRAMITACAO
      · rw [if_pos g3] at hq
        subst hq
        exfalso
        simp [emite] at hev
        subst hev
        rcases hcase with ⟨ht, hn⟩ | ⟨ht, hn⟩
        · simp at hn
          exact hn.1 (by simpa using g3)
        · simp at ht
      · rw [if_neg g3] at hq
        by_cases g4 : m.in_tramitacao ∧
            (compact_key (linhas.getD li "") = C_RECEBIMENTO ∨
             compact_key (linhas.getD li "") = C_APRESENTACAO)
        · rw [if_pos g4] at hq
          subst hq
          exfalso
          simp [emite] at hev
          subst hev
          rcases hcase with ⟨ht, hn⟩ | ⟨ht, hn⟩
          · simp at hn
            rcases g4.2 with h | h
            · exact hn.2.1 (by simpa using h)
            · exact hn.2.2 (by simpa using h)
          · simp at ht
        · rw [if_neg g4] at hq
          by_cases g5 : (¬ m.in_tramitacao) ∧ compact_key (linhas.getD li "") = C_APRESENTACAO
          · rw [if_pos g5] at hq
            subst hq
            exfalso
            simp at hev
          · rw [if_neg g5] at hq
            by_cases g6 : m.apresentacao_ativa ∧
                (compact_key (linhas.getD li "") = C_TRAMITACAO ∨
                 compact_key (linhas.getD li "") = C_ATA ∨
                 compact_key (linhas.getD li "") = C_ATAS ∨
                 compact_key (linhas.getD li "") = C_MATERIA_ADM)
            · rw [if_pos g6] at hq
              subst hq
              exact resto_reset _ pag _ _ _ _ _ _ e hev hcase
            · rw [if_neg g6] at hq
              subst hq
              exact resto_reset _ pag _ _ _ _ _ _ e hev hcase

/-- C2 (counterexample): the TRAMITAÇÃO header line makes the classifier
emit a CUT event while setting `in_tramitacao := true`, so the claimed
invariant "after any CUT event, `in_tramitacao == false`" is false. -/
theorem claim_C2_counterexample :
    (stepLinha maquinaInicial 1 ["TRAMITAÇÃO DE PROPOSIÇÕES"] 0).eventos
      = [⟨1, 1, Tipo.CUT, none, false, true⟩] ∧
    (stepLinha maquinaInicial 1 ["TRAMITAÇÃO DE PROPOSIÇÕES"] 0).in_tramitacao = true :=
  ⟨by decide, by decide⟩

/-- Witness for the amended C2: the CUT emitted for "ATA" resets both
flags. -/
theorem claim_C2_witness :
    (stepLinha maquinaInicial 1 ["ATA"] 0).in_tramitacao = false ∧
    (stepLinha maquinaInicial 1 ["ATA"] 0).apresentacao_ativa = false :=
  claim_C2_amended maquinaInicial 1 ["ATA"] 0 ⟨1, 1, Tipo.CUT, none, false, true⟩
    (by decide) (Or.inl ⟨rfl, by decide⟩)

/-- The invariant of C10 for a single event. -/
def invTipo (e : Evento) : Prop :=
  (e.tipo = Tipo.OUT → e.fimSobreposto = true) ∧
  (e.tipo = Tipo.CUT → e.fimSobreposto = false ∧ e.label = none)

/-- Every event appended by the tail of the cascade is an OUT event with
`closes_with_overlap = true`. -/
theorem resto_invTipo (m : Maquina) (pag : Nat) (c lnUp k1 k2 k3 : String) (top : Bool)
    (h : ∀ e ∈ m.eventos, invTipo e) :
    ∀ e ∈ (restoCascata m pag c lnUp k1 k2 k3 top).eventos, invTipo e := by
  obtain ⟨r, hq⟩ : ∃ r, restoCascata m pag c lnUp k1 k2 k3 top = r := ⟨_, rfl⟩
  rw [hq]
  simp only [restoCascata] at hq
  by_cases h1 : c = C_CORRESP_CAB
  · rw [if_pos h1] at hq
    subst hq
    exact h
  · rw [if_neg h1] at hq
    by_cases h2 : m.viu_corresp_cab ∧ c = C_OFICIOS
    · rw [if_pos h2] at hq
      subst hq
      intro e2 he
      rcases List.mem_append.mp he with hm1 | hm1
      · exact h e2 hm1
      · simp at hm1
        subst hm1
        exact ⟨fun _ => rfl, fun hc => by simp at hc⟩
    · rw [if_neg h2] at hq
      by_cases h3 : m.apresentacao_ativa ∧ (comecaCom k1 C_PROJETO_DE_LEI ∨ comecaCom k1 C_PROJETOS_DE_LEI ∨ comecaCom k2 C_PROJETO_DE_LEI ∨ comecaCom k2 C_PROJETOS_DE_LEI ∨ comecaCom k3 C_PROJETO_DE_LEI ∨ comecaCom k3 C_PROJETOS_DE_LEI)
      · rw [if_pos h3] at hq
        by_cases hs : m.sub_apresentacao ≠ some "PL"
        · rw [if_pos hs] at hq
          subst hq
          intro e2 he
          rcases List.mem_append.mp he with hm1 | hm1
          · exact h e2 hm1
          · simp at hm1
            subst hm1
            exact ⟨fun _ => rfl, fun hc => by simp at hc⟩
        · rw [if_neg hs] at hq
          subst hq
          exact h
      · rw [if_neg h3] at hq
        by_cases h4 : m.apresentacao_ativa ∧ (comecaCom k1 C_REQUERIMENTOS ∨ comecaCom k2 C_REQUERIMENTOS ∨ comecaCom k3 C_REQUERIMENTOS)
        · rw [if_pos h4] at hq
          by_cases hs : m.sub_apresentacao ≠ some "REQ"
          · rw [if_pos hs] at hq
            subst hq
            intro e2 he
            rcases List.mem_append.mp he with hm1 | hm1
            · exact h e2 hm1
            · simp at hm1
              subst hm1
              exact ⟨fun _ => rfl, fun hc => by simp at hc⟩
          · rw [if_neg hs] at hq
            subst hq
            exact h
        · rw [if_neg h4] at hq
          by_cases h5 : c = C_OFICIOS
          · rw [if_pos h5] at hq
            subst hq
            intro e2 he
            rcases List.mem_append.mp he with hm1 | hm1
            · exact h e2 hm1
            · simp at hm1
              subst hm1
              exact ⟨fun _ => rfl, fun hc => by simp at hc⟩
          · rw [if_neg h5] at hq
            by_cases h6 : ¬ m.pegou_leis ∧ pag ≤ MAX_PAG_LEIS ∧ (lnUp = "LEI" ∨ lnUp = "LEIS")
            · rw [if_pos h6] at hq
              subst hq
              intro e2 he
              rcases List.mem_append.mp he with hm1 | hm1
              · exact h e2 hm1
              · simp at hm1
                subst hm1
                exact ⟨fun _ => rfl, fun hc => by simp at hc⟩
            · rw [if_neg h6] at hq
              by_cases h7 : c ∈ MANIF_KEYS
              · rw [if_pos h7] at hq
                subst hq
                intro e2 he
                rcases List.mem_append.mp he with hm1 | hm1
                · exact h e2 hm1
                · simp at hm1
                  subst hm1
                  exact ⟨fun _ => rfl, fun hc => by simp at hc⟩
              · rw [if_neg h7] at hq
                by_cases h8 : c ∈ REQ_APROV_KEYS
                · rw [if_pos h8] at hq
                  subst hq
                  intro e2 he
                  rcases List.mem_append.mp he with hm1 | hm1
                  · exact h e2 hm1
                  · simp at hm1
                    subst hm1
                    exact ⟨fun _ => rfl, fun hc => by simp at hc⟩
                · rw [if_neg h8] at hq
                  by_cases h9 : c = C_PROPOSICOES_DE_LEI
                  · rw [if_pos h9] at hq
                    subst hq
                    intro e2 he
                    rcases List.mem_append.mp he with hm1 | hm1
                    · exact h e2 hm1
                    · simp at hm1
                      subst hm1
                      exact ⟨fun _ => rfl, fun hc => by simp at hc⟩
                  · rw [if_neg h9] at hq
                    by_cases h10 : c = C_RESOLUCAO
                    · rw [if_pos h10] at hq
                      subst hq
                      intro e2 he
                      rcases List.mem_append.mp he with hm1 | hm1
                      · exact h e2 hm1
                      · simp at hm1
                        subst hm1
                        exact ⟨fun _ => rfl, fun hc => by simp at hc⟩
                    · rw [if_neg h10] at hq
                      by_cases h11 : c ∈ ERRATA_KEYS
                      · rw [if_pos h11] at hq
                        subst hq
                        intro e2 he
                        rcases List.mem_append.mp he with hm1 | hm1
                        · exact h e2 hm1
                        · simp at hm1
                          subst hm1
                          exact ⟨fun _ => rfl, fun hc => by simp at hc⟩
                      · rw [if_neg h11] at hq
                        by_cases h12 : c ∈ EMENDAS_KEYS
                        · rw [if_pos h12] at hq
                          subst hq
                          intro e2 he
                          rcases List.mem_append.mp he with hm1 | hm1
                          · exact h e2 hm1
                          · simp at hm1
                            subst hm1
                            exact ⟨fun _ => rfl, fun hc => by simp at hc⟩
                        · rw [if_neg h12] at hq
                          by_cases h13 : c = C_ACORDO_LIDERES
                          · rw [if_pos h13] at hq
                            subst hq
                            intro e2 he
                            rcases List.mem_append.mp he with hm1 | hm1
                            · exact h e2 hm1
                            · simp at hm1
                              subst hm1
                              exact ⟨fun _ => rfl, fun hc => by simp at hc⟩
                          · rw [if_neg h13] at hq
                            by_cases h14 : c = C_COMUNIC_PRESIDENCIA
                            · rw [if_pos h14] at hq
                              subst hq
                              intro e2 he
                              rcases List.mem_append.mp he with hm1 | hm1
                              · exact h e2 hm1
                              · simp at hm1
                                subst hm1
                                exact ⟨fun _ => rfl, fun hc => by simp at hc⟩
                            · rw [if_neg h14] at hq
                              by_cases h15 : c = C_LEITURA_COMUNICACOES
                              · rw [if_pos h15] at hq
                                subst hq
                                intro e2 he
                                rcases List.mem_append.mp he with hm1 | hm1
                                · exact h e2 hm1
                                · simp at hm1
                                  subst hm1
                                  exact ⟨fun _ => rfl, fun hc => by simp at hc⟩
                              · rw [if_neg h15] at hq
                                by_cases h16 : c = C_DESPACHO_REQUERIMENTOS
                                · rw [if_pos h16] at hq
                                  subst hq
                                  intro e2 he
                                  rcases List.mem_append.mp he with hm1 | hm1
                                  · exact h e2 hm1
                                  · simp at hm1
                                    subst hm1
                                    exact ⟨fun _ => rfl, fun hc => by simp at hc⟩
                                · rw [if_neg h16] at hq
                                  by_cases h17 : c = C_DECISAO_PRESIDENCIA
                                  · rw [if_pos h17] at hq
                                    subst hq
                                    intro e2 he
                                    rcases List.mem_append.mp he with hm1 | hm1
                                    · exact h e2 hm1
                                    · simp at hm1
                                      subst hm1
                                      exact ⟨fun _ => rfl, fun hc => by simp at hc⟩
                                  · rw [if_neg h17] at hq
                                    by_cases h18 : c = C_PROPOSICOES_NAO_RECEBIDAS
                                    · rw [if_pos h18] at hq
                                      subst hq
                                      intro e2 he
                                      rcases List.mem_append.mp he with hm1 | hm1
                                      · exact h e2 hm1
                                      · simp at hm1
                                        subst hm1
                                        exact ⟨fun _ => rfl, fun hc => by simp at hc⟩
                                    · rw [if_neg h18] at hq
                                      subst hq
                                      exact h

/-- Every event appended by one classifier step satisfies the C10
invariant. -/
theorem step_invTipo (m : Maquina) (pag : Nat) (linhas : List String) (li : Nat)
    (h : ∀ e ∈ m.eventos, invTipo e) :
    ∀ e ∈ (stepLinha m pag linhas li).eventos, invTipo e := by
  obtain ⟨r, hq⟩ : ∃ r, stepLinha m pag linhas li = r := ⟨_, rfl⟩
  rw [hq]
  simp only [stepLinha] at hq
  by_cases g1 : compact_key (linhas.getD li "") ∈ CUT_KEYS
  · rw [if_pos g1] at hq
    subst hq
    intro e2 he
    rcases List.mem_append.mp he with hm1 | hm1
    · exact h e2 hm1
    · simp at hm1
      subst hm1
      exact ⟨fun ho => by simp at ho, fun _ => ⟨rfl, rfl⟩⟩
  · rw [if_neg g1] at hq
    by_cases g2 : comecaCom (compact_key (linhas.getD li "")) "PARECER"
    · rw [if_pos g2] at hq
      subst hq
      intro e2 he
      rcases List.mem_append.mp he with hm1 | hm1
      · exact h e2 hm1
      · simp at hm1
        subst hm1
        exact ⟨fun ho => by simp at ho, fun _ => ⟨rfl, rfl⟩⟩
    · rw [if_neg g2] at hq
      by_cases g3 : compact_key (linhas.getD li "") = C_TRAMITACAO
      · rw [if_pos g3] at hq
        subst hq
        intro e2 he
        rcases List.mem_append.mp he with hm1 | hm1
        · exact h e2 hm1
        · simp at hm1
          subst hm1
          exact ⟨fun ho => by simp at ho, fun _ => ⟨rfl, rfl⟩⟩
      · rw [if_neg g3] at hq
        by_cases g4 : m.in_tramitacao ∧
            (compact_key (linhas.getD li "") = C_RECEBIMENTO ∨
             compact_key (linhas.getD li "") = C_APRESENTACAO)
        · rw [if_pos g4] at hq
          subst hq
          intro e2 he
          rcases List.mem_append.mp he with hm1 | hm1
          · exact h e2 hm1
          · simp at hm1
            subst hm1
            exact ⟨fun ho => by simp at ho, fun _ => ⟨rfl, rfl⟩⟩
        · rw [if_neg g4] at hq
          by_cases g5 : (¬ m.in_tramitacao) ∧ compact_key (linhas.getD li "") = C_APRESENTACAO
          · rw [if_pos g5] at hq
            subst hq
            exact h
          · rw [if_neg g5] at hq
            by_cases g6 : m.apresentacao_ativa ∧
                (compact_key (linhas.getD li "") = C_TRAMITACAO ∨
                 compact_key (linhas.getD li "") = C_ATA ∨
                 compact_key (linhas.getD li "") = C_ATAS ∨
                 compact_key (linhas.getD li "") = C_MATERIA_ADM)
            · rw [if_pos g6] at hq
              subst hq
              exact resto_invTipo _ pag _ _ _ _ _ _ h
            · rw [if_neg g6] at hq
              subst hq
              exact resto_invTipo _ pag _ _ _ _ _ _ h

/-- A `foldl` preserves a state predicate preserved by each step. -/
theorem foldl_preserva {α : Type} {P : Maquina → Prop} {f : Maquina → α → Maquina}
    (hf : ∀ m a, P m → P (f m a)) :
    ∀ (l : List α) (m : Maquina), P m → P (l.foldl f m) := by
  intro l
  induction l with
  | nil => intro m hm; exact hm
  | cons a t ih => intro m hm; exact ih _ (hf m a hm)

theorem pagina_invTipo (m : Maquina) (i : Nat) (raw : List String)
    (h : ∀ e ∈ m.eventos, invTipo e) :
    ∀ e ∈ (processaPagina m i raw).eventos, invTipo e := by
  unfold processaPagina
  exact foldl_preserva (P := fun m => ∀ e ∈ m.eventos, invTipo e)
    (fun m li hm => step_invTipo m _ _ li hm) _ m h

/-- C10: every OUT event carries `closes_with_overlap = true`, and every CUT
event carries `closes_with_overlap = false` and no label: the overlap flag of
an emitted event is fully determined by its kind. -/
theorem claim_C10 (doc : List (List String)) (e : Evento) (he : e ∈ eventos doc) :
    (e.tipo = Tipo.OUT → e.fimSobreposto = true) ∧
    (e.tipo = Tipo.CUT → e.fimSobreposto = false ∧ e.label = none) := by
  revert he
  have : ∀ e2 ∈ (eventos doc), invTipo e2 := by
    unfold eventos
    exact foldl_preserva (P := fun m => ∀ x ∈ m.eventos, invTipo x)
      (fun m p hm => pagina_invTipo m p.1 p.2 hm) _ maquinaInicial
      (by intro x hx; simp [maquinaInicial] at hx)
  exact fun he => this e he

/-- Witness for C10 on a document producing one CUT and one OUT event. -/
theorem claim_C10_witness :
    ((⟨1, 2, Tipo.OUT, some "OFÍCIOS", true, false⟩ : Evento).fimSobreposto = true) ∧
    ((⟨1, 1, Tipo.CUT, none, false, true⟩ : Evento).fimSobreposto = false ∧
     (⟨1, 1, Tipo.CUT, none, false, true⟩ : Evento).label = none) :=
  ⟨(claim_C10 [["ATA", "OFÍCIOS"]] ⟨1, 2, Tipo.OUT, some "OFÍCIOS", true, false⟩
      (by decide)).1 rfl,
   (claim_C10 [["ATA", "OFÍCIOS"]] ⟨1, 1, Tipo.CUT, none, false, true⟩
      (by decide)).2 rfl⟩

/-- If the tail of the cascade appends exactly the "LEIS PROMULGADAS" event,
then the LEIS branch's guard held. -/
theorem resto_leis_dir (m : Maquina) (pag : Nat) (c lnUp k1 k2 k3 : String) (top : Bool)
    (hev : (restoCascata m pag c lnUp k1 k2 k3 top).eventos
      = m.eventos ++ [⟨pag, m.ordem + 1, Tipo.OUT, some "LEIS PROMULGADAS", true, top⟩]) :
    m.pegou_leis = false ∧ pag ≤ MAX_PAG_LEIS ∧ (lnUp = "LEI" ∨ lnUp = "LEIS") := by
  obtain ⟨r, hq⟩ : ∃ r, restoCascata m pag c lnUp k1 k2 k3 top = r := ⟨_, rfl⟩
  rw [hq] at hev
  simp only [restoCascata] at hq
  by_cases h1 : c = C_CORRESP_CAB
  · rw [if_pos h1] at hq
    subst hq
    simp at hev
  · rw [if_neg h1] at hq
    by_cases h2 : m.viu_corresp_cab ∧ c = C_OFICIOS
    · rw [if_pos h2] at hq
      subst hq
      simp [limpaContextos, emite] at hev
    · rw [if_neg h2] at hq
      by_cases h3 : m.apresentacao_ativa ∧ (comecaCom k1 C_PROJETO_DE_LEI ∨ comecaCom k1 C_PROJETOS_DE_LEI ∨ comecaCom k2 C_PROJETO_DE_LEI ∨ comecaCom k2 C_PROJETOS_DE_LEI ∨ comecaCom k3 C_PROJETO_DE_LEI ∨ comecaCom k3 C_PROJETOS_DE_LEI)
      · rw [if_pos h3] at hq
        by_cases hs : m.sub_apresentacao ≠ some "PL"
        · rw [if_pos hs] at hq
          subst hq
          cases hm : m.in_tramitacao <;>
            simp [limpaContextos, emite, label_apresentacao, prefixo_tramitacao, hm] at hev
        · rw [if_neg hs] at hq
          subst hq
          simp at hev
      · rw [if_neg h3] at hq
        by_cases h4 : m.apresentacao_ativa ∧ (comecaCom k1 C_REQUERIMENTOS ∨ comecaCom k2 C_REQUERIMENTOS ∨ comecaCom k3 C_REQUERIMENTOS)
        · rw [if_pos h4] at hq
          by_cases hs : m.sub_apresentacao ≠ some "REQ"
          · rw [if_pos hs] at hq
            subst hq
            cases hm : m.in_tramitacao <;>
              simp [limpaContextos, emite, label_apresentacao, prefixo_tramitacao, hm] at hev
          · rw [if_neg hs] at hq
            subst hq
            simp at hev
        · rw [if_neg h4] at hq
          by_cases h5 : c = C_OFICIOS
          · rw [if_pos h5] at hq
            subst hq
            simp [limpaContextos, emite] at hev
          · rw [if_neg h5] at hq
            by_cases h6 : ¬ m.pegou_leis ∧ pag ≤ MAX_PAG_LEIS ∧ (lnUp = "LEI" ∨ lnUp = "LEIS")
            · rw [if_pos h6] at hq
              subst hq
              exact ⟨by simpa using h6.1, h6.2.1, h6.2.2⟩
            · rw [if_neg h6] at hq
              by_cases h7 : c ∈ MANIF_KEYS
              · rw [if_pos h7] at hq
                subst hq
                simp [limpaContextos, emite] at hev
              · rw [if_neg h7] at hq
                by_cases h8 : c ∈ REQ_APROV_KEYS
                · rw [if_pos h8] at hq
                  subst hq
                  simp [limpaContextos, emite] at hev
                · rw [if_neg h8] at hq
                  by_cases h9 : c = C_PROPOSICOES_DE_LEI
                  · rw [if_pos h9] at hq
                    subst hq
                    simp [limpaContextos, emite] at hev
                  · rw [if_neg h9] at hq
                    by_cases h10 : c = C_RESOLUCAO
                    · rw [if_pos h10] at hq
                      subst hq
                      simp [limpaContextos, emite] at hev
                    · rw [if_neg h10] at hq
                      by_cases h11 : c ∈ ERRATA_KEYS
                      · rw [if_pos h11] at hq
                        subst hq
                        simp [limpaContextos, emite] at hev
                      · rw [if_neg h11] at hq
                        by_cases h12 : c ∈ EMENDAS_KEYS
                        · rw [if_pos h12] at hq
                          subst hq
                          simp [limpaContextos, emite] at hev
                        · rw [if_neg h12] at hq
                          by_cases h13 : c = C_ACORDO_LIDERES
                          · rw [if_pos h13] at hq
                            subst hq
                            simp [limpaContextos, emite] at hev
                          · rw [if_neg h13] at hq
                            by_cases h14 : c = C_COMUNIC_PRESIDENCIA
                            · rw [if_pos h14] at hq
                              subst hq
                              cases hm : m.in_tramitacao <;> simp [limpaContextos, emite, prefixo_tramitacao, hm] at hev
                            · rw [if_neg h14] at hq
                              by_cases h15 : c = C_LEITURA_COMUNICACOES
                              · rw [if_pos h15] at hq
                                subst hq
                                simp [limpaContextos, emite] at hev
                              · rw [if_neg h15] at hq
                                by_cases h16 : c = C_DESPACHO_REQUERIMENTOS
                                · rw [if_pos h16] at hq
                                  subst hq
                                  simp [limpaContextos, emite] at hev
                                · rw [if_neg h16] at hq
                                  by_cases h17 : c = C_DECISAO_PRESIDENCIA
                                  · rw [if_pos h17] at hq
                                    subst hq
                                    simp [limpaContextos, emite] at hev
                                  · rw [if_neg h17] at hq
                                    by_cases h18 : c = C_PROPOSICOES_NAO_RECEBIDAS
                                    · rw [if_pos h18] at hq
                                      subst hq
                                      simp [limpaContextos, emite] at hev
                                    · rw [if_neg h18] at hq
                                      subst hq
                                      simp at hev

/-- Navigation to the LEIS branch: when the compact key is literally "LEI" or
"LEIS" and no window triggers the apresentação subdivision, the LEIS guard
fires and appends exactly the "LEIS PROMULGADAS" event (and raises the
one-shot flag). -/
theorem resto_leis_rev (m : Maquina) (pag : Nat) (c lnUp k1 k2 k3 : String) (top : Bool)
    (hc : c = "LEI" ∨ c = "LEIS")
    (hpl : ¬(comecaCom k1 C_PROJETO_DE_LEI ∨ comecaCom k1 C_PROJETOS_DE_LEI ∨
      comecaCom k2 C_PROJETO_DE_LEI ∨ comecaCom k2 C_PROJETOS_DE_LEI ∨
      comecaCom k3 C_PROJETO_DE_LEI ∨ comecaCom k3 C_PROJETOS_DE_LEI))
    (hreq : ¬(comecaCom k1 C_REQUERIMENTOS ∨ comecaCom k2 C_REQUERIMENTOS ∨
      comecaCom k3 C_REQUERIMENTOS))
    (hp : m.pegou_leis = false) (hpag : pag ≤ MAX_PAG_LEIS)
    (hup : lnUp = "LEI" ∨ lnUp = "LEIS") :
    (restoCascata m pag c lnUp k1 k2 k3 top).eventos
      = m.eventos ++ [⟨pag, m.ordem + 1, Tipo.OUT, some "LEIS PROMULGADAS", true, top⟩] ∧
    (restoCascata m pag c lnUp k1 k2 k3 top).pegou_leis = true := by
  rcases hc with rfl | rfl <;>
  · simp only [restoCascata]
    rw [if_neg (by decide)]
    rw [if_neg (fun hx => absurd hx.2 (by decide))]
    rw [if_neg (fun hx => hpl hx.2)]
    rw [if_neg (fun hx => hreq hx.2)]
    rw [if_neg (by decide)]
    rw [if_pos ⟨by simp [hp], hpag, hup⟩]
    exact ⟨rfl, rfl⟩

/-- The tail of the cascade preserves the "at most one LEIS event, none while
the one-shot flag is down" invariant. -/
theorem resto_count (m : Maquina) (pag : Nat) (c lnUp k1 k2 k3 : String) (top : Bool)
    (h : m.eventos.countP ehLeis ≤ if m.pegou_leis then 1 else 0) :
    (restoCascata m pag c lnUp k1 k2 k3 top).eventos.countP ehLeis ≤
      if (restoCascata m pag c lnUp k1 k2 k3 top).pegou_leis then 1 else 0 := by
  obtain ⟨r, hq⟩ : ∃ r, restoCascata m pag c lnUp k1 k2 k3 top = r := ⟨_, rfl⟩
  rw [hq]
  simp only [restoCascata] at hq
  by_cases h1 : c = C_CORRESP_CAB
  · rw [if_pos h1] at hq
    subst hq
    exact h
  · rw [if_neg h1] at hq
    by_cases h2 : m.viu_corresp_cab ∧ c = C_OFICIOS
    · rw [if_pos h2] at hq
      subst hq
      simpa [List.countP_append, List.countP_cons, ehLeis, limpaContextos, emite] using h
    · rw [if_neg h2] at hq
      by_cases h3 : m.apresentacao_ativa ∧ (comecaCom k1 C_PROJETO_DE_LEI ∨ comecaCom k1 C_PROJETOS_DE_LEI ∨ comecaCom k2 C_PROJETO_DE_LEI ∨ comecaCom k2 C_PROJETOS_DE_LEI ∨ comecaCom k3 C_PROJETO_DE_LEI ∨ comecaCom k3 C_PROJETOS_DE_LEI)
      · rw [if_pos h3] at hq
        by_cases hs : m.sub_apresentacao ≠ some "PL"
        · rw [if_pos hs] at hq
          subst hq
          cases hm : m.in_tramitacao <;>
            simpa [List.countP_append, List.countP_cons, ehLeis, emite,
              label_apresentacao, prefixo_tramitacao, hm] using h
        · rw [if_neg hs] at hq
          subst hq
          exact h
      · rw [if_neg h3] at hq
        by_cases h4 : m.apresentacao_ativa ∧ (comecaCom k1 C_REQUERIMENTOS ∨ comecaCom k2 C_REQUERIMENTOS ∨ comecaCom k3 C_REQUERIMENTOS)
        · rw [if_pos h4] at hq
          by_cases hs : m.sub_apresentacao ≠ some "REQ"
          · rw [if_pos hs] at hq
            subst hq
            cases hm : m.in_tramitacao <;>
              simpa [List.countP_append, List.countP_cons, ehLeis, emite,
                label_apresentacao, prefixo_tramitacao, hm] using h
          · rw [if_neg hs] at hq
            subst hq
            exact h
        · rw [if_neg h4] at hq
          by_cases h5 : c = C_OFICIOS
          · rw [if_pos h5] at hq
            subst hq
            simpa [List.countP_append, List.countP_cons, ehLeis, limpaContextos, emite] using h
          · rw [if_neg h5] at hq
            by_cases h6 : ¬ m.pegou_leis ∧ pag ≤ MAX_PAG_LEIS ∧ (lnUp = "LEI" ∨ lnUp = "LEIS")
            · rw [if_pos h6] at hq
              subst hq
              have hpf : m.pegou_leis = false := by simpa using h6.1
              have hz : m.eventos.countP ehLeis = 0 := by rw [hpf] at h; simpa using h
              simp [List.countP_append, List.countP_cons, ehLeis, limpaContextos, emite, hz]
            · rw [if_neg h6] at hq
              by_cases h7 : c ∈ MANIF_KEYS
              · rw [if_pos h7] at hq
                subst hq
                simpa [List.countP_append, List.countP_cons, ehLeis, limpaContextos, emite] using h
              · rw [if_neg h7] at hq
                by_cases h8 : c ∈ REQ_APROV_KEYS
                · rw [if_pos h8] at hq
                  subst hq
                  simpa [List.countP_append, List.countP_cons, ehLeis, limpaContextos, emite] using h
                · rw [if_neg h8] at hq
                  by_cases h9 : c = C_PROPOSICOES_DE_LEI
                  · rw [if_pos h9] at hq
                    subst hq
                    simpa [List.countP_append, List.countP_cons, ehLeis, limpaContextos, emite] using h
                  · rw [if_neg h9] at hq
                    by_cases h10 : c = C_RESOLUCAO
                    · rw [if_pos h10] at hq
                      subst hq
                      simpa [List.countP_append, List.countP_cons, ehLeis, limpaContextos, emite] using h
                    · rw [if_neg h10] at hq
                      by_cases h11 : c ∈ ERRATA_KEYS
                      · rw [if_pos h11] at hq
                        subst hq
                        simpa [List.countP_append, List.countP_cons, ehLeis, limpaContextos, emite] using h
                      · rw [if_neg h11] at hq
                        by_cases h12 : c ∈ EMENDAS_KEYS
                        · rw [if_pos h12] at hq
                          subst hq
                          simpa [List.countP_append, List.countP_cons, ehLeis, limpaContextos, emite] using h
                        · rw [if_neg h12] at hq
                          by_cases h13 : c = C_ACORDO_LIDERES
                          · rw [if_pos h13] at hq
                            subst hq
                            simpa [List.countP_append, List.countP_cons, ehLeis, limpaContextos, emite] using h
                          · rw [if_neg h13] at hq
                            by_cases h14 : c = C_COMUNIC_PRESIDENCIA
                            · rw [if_pos h14] at hq
                              subst hq
                              cases hm : m.in_tramitacao <;>
                                simpa [List.countP_append, List.countP_cons, ehLeis, limpaContextos, emite,
                                  prefixo_tramitacao, hm] using h
                            · rw [if_neg h14] at hq
                              by_cases h15 : c = C_LEITURA_COMUNICACOES
                              · rw [if_pos h15] at hq
                                subst hq
                                simpa [List.countP_append, List.countP_cons, ehLeis, limpaContextos, emite] using h
                              · rw [if_neg h15] at hq
                                by_cases h16 : c = C_DESPACHO_REQUERIMENTOS
                                · rw [if_pos h16] at hq
                                  subst hq
                                  simpa [List.countP_append, List.countP_cons, ehLeis, limpaContextos, emite] using h
                                · rw [if_neg h16] at hq
                                  by_cases h17 : c = C_DECISAO_PRESIDENCIA
                                  · rw [if_pos h17] at hq
                                    subst hq
                                    simpa [List.countP_append, List.countP_cons, ehLeis, limpaContextos, emite] using h
                                  · rw [if_neg h17] at hq
                                    by_cases h18 : c = C_PROPOSICOES_NAO_RECEBIDAS
                                    · rw [if_pos h18] at hq
                                      subst hq
                                      simpa [List.countP_append, List.countP_cons, ehLeis, limpaContextos, emite] using h
                                    · rw [if_neg h18] at hq
                                      subst hq
                                      exact h

/-- Windows that start with the compact key "LEI"/"LEIS" never carry the
PROJETO(S) DE LEI or REQUERIMENTOS prefixes. -/
theorem win_nao_material (linhas : List String) (li : Nat)
    (hc : compact_key (linhas.getD li "") = "LEI" ∨
      compact_key (linhas.getD li "") = "LEIS") :
    ∀ w : Nat,
      comecaCom (win_keys linhas li (w + 1)) C_PROJETO_DE_LEI = false ∧
      comecaCom (win_keys linhas li (w + 1)) C_PROJETOS_DE_LEI = false ∧
      comecaCom (win_keys linhas li (w + 1)) C_REQUERIMENTOS = false := by
  intro w
  cases hget : linhas[li]? with
  | none =>
    exfalso
    have hD : linhas.getD li "" = "" := by simp [List.getD, hget]
    rw [hD] at hc
    rcases hc with h | h <;> exact absurd h (by decide)
  | some lnv =>
    have hD : linhas.getD li "" = lnv := by simp [List.getD, hget]
    rw [hD] at hc
    have hdata : compactList lnv.data = ['L', 'E', 'I'] ∨
        compactList lnv.data = ['L', 'E', 'I', 'S'] := by
      rcases hc with h | h
      · left
        have h2 := congrArg String.data h
        simpa [compact_key] using h2
      · right
        have h2 := congrArg String.data h
        simpa [compact_key] using h2
    have hget2 : linhas.get? li = some lnv := by rw [List.get?_eq_getElem?, hget]
    have hwd : ∃ r, (win_keys linhas li (w + 1)).data = 'L' :: 'E' :: 'I' :: r := by
      rcases hdata with h | h
      · exact ⟨winKeysList linhas (li + 1) w, by simp [win_keys, winKeysList, hget, h]⟩
      · exact ⟨'S' :: winKeysList linhas (li + 1) w, by simp [win_keys, winKeysList, hget, h]⟩
    obtain ⟨r, hr⟩ := hwd
    refine ⟨?_, ?_, ?_⟩
    · have hP : C_PROJETO_DE_LEI.data = 'P' :: "ROJETODELEI".data := rfl
      simp only [comecaCom, hr, hP]
      simp [List.isPrefixOf]
    · have hP : C_PROJETOS_DE_LEI.data = 'P' :: "ROJETOSDELEI".data := rfl
      simp only [comecaCom, hr, hP]
      simp [List.isPrefixOf]
    · have hP : C_REQUERIMENTOS.data = 'R' :: "EQUERIMENTOS".data := rfl
      simp only [comecaCom, hr, hP]
      simp [List.isPrefixOf]

/-- Forward direction of the LEIS rule at the level of a whole line step. -/
theorem step_leis_dir (m : Maquina) (pag : Nat) (linhas : List String) (li : Nat)
    (hev : (stepLinha m pag linhas li).eventos = m.eventos ++
      [⟨pag, m.ordem + 1, Tipo.OUT, some "LEIS PROMULGADAS", true, is_top_event li linhas⟩]) :
    m.pegou_leis = false ∧ pag ≤ MAX_PAG_LEIS ∧
      (pyStrip (pyUpperStr (linhas.getD li "")) = "LEI" ∨
       pyStrip (pyUpperStr (linhas.getD li "")) = "LEIS") := by
  obtain ⟨r, hq⟩ : ∃ r, stepLinha m pag linhas li = r := ⟨_, rfl⟩
  rw [hq] at hev
  simp only [stepLinha] at hq
  by_cases g1 : compact_key (linhas.getD li "") ∈ CUT_KEYS
  · rw [if_pos g1] at hq
    subst hq
    simp [limpaContextos, emite] at hev
  · rw [if_neg g1] at hq
    by_cases g2 : comecaCom (compact_key (linhas.getD li "")) "PARECER"
    · rw [if_pos g2] at hq
      subst hq
      simp [limpaContextos, emite] at hev
    · rw [if_neg g2] at hq
      by_cases g3 : compact_key (linhas.getD li "") = C_TRAMITACAO
      · rw [if_pos g3] at hq
        subst hq
        simp [emite] at hev
      · rw [if_neg g3] at hq
        by_cases g4 : m.in_tramitacao ∧
            (compact_key (linhas.getD li "") = C_RECEBIMENTO ∨
             compact_key (linhas.getD li "") = C_APRESENTACAO)
        · rw [if_pos g4] at hq
          subst hq
          simp [emite] at hev
        · rw [if_neg g4] at hq
          by_cases g5 : (¬ m.in_tramitacao) ∧
              compact_key (linhas.getD li "") = C_APRESENTACAO
          · rw [if_pos g5] at hq
            subst hq
            simp at hev
          · rw [if_neg g5] at hq
            by_cases g6 : m.apresentacao_ativa ∧
                (compact_key (linhas.getD li "") = C_TRAMITACAO ∨
                 compact_key (linhas.getD li "") = C_ATA ∨
                 compact_key (linhas.getD li "") = C_ATAS ∨
                 compact_key (linhas.getD li "") = C_MATERIA_ADM)
            · rw [if_pos g6] at hq
              subst hq
              exact resto_leis_dir
                { m with apresentacao_ativa := false, sub_apresentacao := none }
                pag _ _ _ _ _ _ hev
            · rw [if_neg g6] at hq
              subst hq
              exact resto_leis_dir m pag _ _ _ _ _ _ hev

/-- Backward direction of the LEIS rule at the level of a whole line step. -/
theorem step_leis_rev (m : Maquina) (pag : Nat) (linhas : List String) (li : Nat)
    (hcond : m.pegou_leis = false ∧ pag ≤ MAX_PAG_LEIS ∧
      (pyStrip (pyUpperStr (linhas.getD li "")) = "LEI" ∨
       pyStrip (pyUpperStr (linhas.getD li "")) = "LEIS")) :
    (stepLinha m pag linhas li).eventos = m.eventos ++
      [⟨pag, m.ordem + 1, Tipo.OUT, some "LEIS PROMULGADAS", true, is_top_event li linhas⟩] ∧
    (stepLinha m pag linhas li).pegou_leis = true := by
  have hc : compact_key (linhas.getD li "") = "LEI" ∨
      compact_key (linhas.getD li "") = "LEIS" := by
    rcases hcond.2.2 with h | h
    · left
      have h2 := compact_key_strip_upper (linhas.getD li "")
      rw [h] at h2
      rw [← h2]
      decide
    · right
      have h2 := compact_key_strip_upper (linhas.getD li "")
      rw [h] at h2
      rw [← h2]
      decide
  have hwin := win_nao_material linhas li hc
  have hpl : ¬(comecaCom (win_keys linhas li 1) C_PROJETO_DE_LEI ∨
      comecaCom (win_keys linhas li 1) C_PROJETOS_DE_LEI ∨
      comecaCom (win_keys linhas li 2) C_PROJETO_DE_LEI ∨
      comecaCom (win_keys linhas li 2) C_PROJETOS_DE_LEI ∨
      comecaCom (win_keys linhas li 3) C_PROJETO_DE_LEI ∨
      comecaCom (win_keys linhas li 3) C_PROJETOS_DE_LEI) := by
    intro hx
    rcases hx with h | h | h | h | h | h
    · exact absurd h (by simp [(hwin 0).1])
    · exact absurd h (by simp [(hwin 0).2.1])
    · exact absurd h (by simp [(hwin 1).1])
    · exact absurd h (by simp [(hwin 1).2.1])
    · exact absurd h (by simp [(hwin 2).1])
    · exact absurd h (by simp [(hwin 2).2.1])
  have hreq : ¬(comecaCom (win_keys linhas li 1) C_REQUERIMENTOS ∨
      comecaCom (win_keys linhas li 2) C_REQUERIMENTOS ∨
      comecaCom (win_keys linhas li 3) C_REQUERIMENTOS) := by
    intro hx
    rcases hx with h | h | h
    · exact absurd h (by simp [(hwin 0).2.2])
    · exact absurd h (by simp [(hwin 1).2.2])
    · exact absurd h (by simp [(hwin 2).2.2])
  have hg1 : compact_key (linhas.getD li "") ∉ CUT_KEYS := by
    rcases hc with h | h <;> rw [h] <;> decide
  have hg2 : ¬ comecaCom (compact_key (linhas.getD li "")) "PARECER" = true := by
    rcases hc with h | h <;> rw [h] <;> decide
  have hg3 : ¬ compact_key (linhas.getD li "") = C_TRAMITACAO := by
    rcases hc with h | h <;> rw [h] <;> decide
  have hg4 : ¬(m.in_tramitacao ∧
      (compact_key (linhas.getD li "") = C_RECEBIMENTO ∨
       compact_key (linhas.getD li "") = C_APRESENTACAO)) := by
    intro hx
    rcases hc with h | h <;> rw [h] at hx <;> rcases hx.2 with h2 | h2 <;> revert h2 <;> decide
  have hg5 : ¬((¬ m.in_tramitacao) ∧ compact_key (linhas.getD li "") = C_APRESENTACAO) := by
    intro hx
    rcases hc with h | h <;> rw [h] at hx <;> exact absurd hx.2 (by decide)
  have hg6 : ¬(m.apresentacao_ativa ∧
      (compact_key (linhas.getD li "") = C_TRAMITACAO ∨
       compact_key (linhas.getD li "") = C_ATA ∨
       compact_key (linhas.getD li "") = C_ATAS ∨
       compact_key (linhas.getD li "") = C_MATERIA_ADM)) := by
    intro hx
    rcases hc with h | h <;> rw [h] at hx <;>
      rcases hx.2 with h2 | h2 | h2 | h2 <;> revert h2 <;> decide
  simp only [stepLinha]
  rw [if_neg hg1, if_neg hg2, if_neg hg3, if_neg hg4, if_neg hg5, if_neg hg6]
  exact (resto_leis_rev m pag _ _ _ _ _ _ hc hpl hreq hcond.1 hcond.2.1 hcond.2.2)

/-- One line step preserves the LEIS-count invariant. -/
theorem step_count (m : Maquina) (pag : Nat) (linhas : List String) (li : Nat)
    (h : m.eventos.countP ehLeis ≤ if m.pegou_leis then 1 else 0) :
    (stepLinha m pag linhas li).eventos.countP ehLeis ≤
      if (stepLinha m pag linhas li).pegou_leis then 1 else 0 := by
  obtain ⟨r, hq⟩ : ∃ r, stepLinha m pag linhas li = r := ⟨_, rfl⟩
  rw [hq]
  simp only [stepLinha] at hq
  by_cases g1 : compact_key (linhas.getD li "") ∈ CUT_KEYS
  · rw [if_pos g1] at hq
    subst hq
    simpa [List.countP_append, List.countP_cons, ehLeis, limpaContextos, emite] using h
  · rw [if_neg g1] at hq
    by_cases g2 : comecaCom (compact_key (linhas.getD li "")) "PARECER"
    · rw [if_pos g2] at hq
      subst hq
      simpa [List.countP_append, List.countP_cons, ehLeis, limpaContextos, emite] using h
    · rw [if_neg g2] at hq
      by_cases g3 : compact_key (linhas.getD li "") = C_TRAMITACAO
      · rw [if_pos g3] at hq
        subst hq
        simpa [List.countP_append, List.countP_cons, ehLeis, emite] using h
      · rw [if_neg g3] at hq
        by_cases g4 : m.in_tramitacao ∧
            (compact_key (linhas.getD li "") = C_RECEBIMENTO ∨
             compact_key (linhas.getD li "") = C_APRESENTACAO)
        · rw [if_pos g4] at hq
          subst hq
          simpa [List.countP_append, List.countP_cons, ehLeis, emite] using h
        · rw [if_neg g4] at hq
          by_cases g5 : (¬ m.in_tramitacao) ∧
              compact_key (linhas.getD li "") = C_APRESENTACAO
          · rw [if_pos g5] at hq
            subst hq
            exact h
          · rw [if_neg g5] at hq
            by_cases g6 : m.apresentacao_ativa ∧
                (compact_key (linhas.getD li "") = C_TRAMITACAO ∨
                 compact_key (linhas.getD li "") = C_ATA ∨
                 compact_key (linhas.getD li "") = C_ATAS ∨
                 compact_key (linhas.getD li "") = C_MATERIA_ADM)
            · rw [if_pos g6] at hq
              subst hq
              exact resto_count _ pag _ _ _ _ _ _ h
            · rw [if_neg g6] at hq
              subst hq
              exact resto_count _ pag _ _ _ _ _ _ h

theorem pagina_count (m : Maquina) (i : Nat) (raw : List String)
    (h : m.eventos.countP ehLeis ≤ if m.pegou_leis then 1 else 0) :
    (processaPagina m i raw).eventos.countP ehLeis ≤
      if (processaPagina m i raw).pegou_leis then 1 else 0 := by
  unfold processaPagina
  exact foldl_preserva
    (P := fun m2 => m2.eventos.countP ehLeis ≤ if m2.pegou_leis then 1 else 0)
    (fun m2 li hm => step_count m2 _ _ li hm) _ m h

/-- C6: the classifier emits the "LEIS PROMULGADAS" OUT event for a line
exactly when the one-shot flag is still down, the printed page number is at
most the ceiling (40), and the line's literal uppercased trimmed text is
"LEI" or "LEIS"; the emission raises the flag, and over a whole document at
most one such event is ever emitted. -/
theorem claim_C6 :
    (∀ (m : Maquina) (pag : Nat) (linhas : List String) (li : Nat),
      ((stepLinha m pag linhas li).eventos = m.eventos ++
          [⟨pag, m.ordem + 1, Tipo.OUT, some "LEIS PROMULGADAS", true,
            is_top_event li linhas⟩] ↔
        (m.pegou_leis = false ∧ pag ≤ MAX_PAG_LEIS ∧
          (pyStrip (pyUpperStr (linhas.getD li "")) = "LEI" ∨
           pyStrip (pyUpperStr (linhas.getD li "")) = "LEIS"))) ∧
      ((m.pegou_leis = false ∧ pag ≤ MAX_PAG_LEIS ∧
          (pyStrip (pyUpperStr (linhas.getD li "")) = "LEI" ∨
           pyStrip (pyUpperStr (linhas.getD li "")) = "LEIS")) →
        (stepLinha m pag linhas li).pegou_leis = true)) ∧
    (∀ doc : List (List String), (eventos doc).countP ehLeis ≤ 1) := by
  constructor
  · intro m pag linhas li
    exact ⟨⟨step_leis_dir m pag linhas li, fun hcond => (step_leis_rev m pag linhas li hcond).1⟩,
      fun hcond => (step_leis_rev m pag linhas li hcond).2⟩
  · intro doc
    have h := foldl_preserva
      (P := fun m2 => m2.eventos.countP ehLeis ≤ if m2.pegou_leis then 1 else 0)
      (fun m2 p hm => pagina_count m2 p.1 p.2 hm) doc.enum maquinaInicial
      (by simp [maquinaInicial])
    unfold eventos
    refine le_trans h ?_
    split_ifs <;> omega

/-- Witness for C6: the single line "LEI" on printed page 3 emits the one
"LEIS PROMULGADAS" event and raises the one-shot flag. -/
theorem claim_C6_witness :
    (stepLinha maquinaInicial 3 ["LEI"] 0).eventos = maquinaInicial.eventos ++
      [⟨3, maquinaInicial.ordem + 1, Tipo.OUT, some "LEIS PROMULGADAS", true,
        is_top_event 0 ["LEI"]⟩] ∧
    (stepLinha maquinaInicial 3 ["LEI"] 0).pegou_leis = true :=
  ⟨((claim_C6.1 maquinaInicial 3 ["LEI"] 0).1).mpr ⟨rfl, by decide, Or.inl (by decide)⟩,
   (claim_C6.1 maquinaInicial 3 ["LEI"] 0).2 ⟨rfl, by decide, Or.inl (by decide)⟩⟩

/-! Helper lemmas for C3: the `_last_idx` dictionary holds, for each key, the
index of the last matching event. -/

theorem passoIdx_acc (acc : List ((Nat × Option String) × Nat)) (p : Nat × Evento) :
    passoIdx acc p = passoIdx [] p ++ acc := by
  unfold passoIdx
  split_ifs <;> simp

theorem foldl_acc_append {α β : Type} (g : List β → α → List β)
    (hg : ∀ acc x, g acc x = g [] x ++ acc) :
    ∀ (l : List α) (acc : List β), l.foldl g acc = l.foldl g [] ++ acc := by
  intro l
  induction l with
  | nil => intro acc; simp
  | cons x t ih =>
    intro acc
    simp only [List.foldl_cons]
    rw [ih (g acc x), ih (g [] x), hg acc x, List.append_assoc]

theorem lookup_lastIdx (k : Nat × Option String) :
    ∀ (evs : List Evento) (n : Nat),
      ((List.enumFrom n evs).foldl passoIdx []).lookup k
        = (posUltimo k evs).map (fun d => n + d) := by
  intro evs
  induction evs with
  | nil => intro n; simp [posUltimo]
  | cons e t ih =>
    intro n
    have hEnum : List.enumFrom n (e :: t) = (n, e) :: List.enumFrom (n + 1) t := rfl
    rw [hEnum]
    simp only [List.foldl_cons]
    rw [foldl_acc_append passoIdx passoIdx_acc, List.lookup_append, ih (n + 1)]
    cases hpu : posUltimo k t with
    | some d =>
      simp only [posUltimo, hpu]
      simp [Option.or]
      omega
    | none =>
      simp only [posUltimo, hpu, Option.map_none, Option.or]
      by_cases hq : e.tipo = Tipo.OUT ∧ rotuloPermitido e.label = false
      · rw [show passoIdx [] (n, e) = [((e.pag, e.label), n)] from by simp [passoIdx, hq]]
        by_cases hk : k = (e.pag, e.label)
        · subst hk
          have hcc : casaChave e (e.pag, e.label) = true := by
            simp [casaChave, hq.1, hq.2]
          simp [List.lookup, hcc]
        · have hcc : casaChave e k = false := by
            simp only [casaChave]
            have : ((e.pag, e.label) == k) = false := by
              simp only [beq_eq_false_iff_ne]
              exact fun h => hk h.symm
            simp [this]
          have hkk : (k == (e.pag, e.label)) = false := by
            simp only [beq_eq_false_iff_ne]
            exact hk
          simp [List.lookup, hkk, hcc]
      · rw [show passoIdx [] (n, e) = [] from by simp [passoIdx, hq]]
        have hcc : casaChave e k = false := by
          simp only [casaChave]
          rcases Decidable.not_and_iff_or_not.mp hq with h | h
          · simp [show (e.tipo == Tipo.OUT) = false from by simpa [beq_eq_false_iff_ne] using h]
          · simp [show rotuloPermitido e.label = true from by simpa using h]
        simp [List.lookup, hcc]

theorem posUltimo_none {k : Nat × Option String} :
    ∀ {evs : List Evento}, posUltimo k evs = none →
      ∀ (j : Nat) (e : Evento), evs.get? j = some e → casaChave e k = false := by
  intro evs
  induction evs with
  | nil => intro _ j e hj; simp at hj
  | cons e0 t ih =>
    intro h j e hj
    simp only [posUltimo] at h
    cases hpu : posUltimo k t with
    | some d => rw [hpu] at h; simp at h
    | none =>
      rw [hpu] at h
      have hc0 : casaChave e0 k = false := by
        by_cases hc : casaChave e0 k = true
        · simp [hc] at h
        · simpa using hc
      cases j with
      | zero => simp at hj; subst hj; exact hc0
      | succ j2 =>
        simp only [List.get?_cons_succ] at hj
        exact ih hpu j2 e hj

theorem posUltimo_some {k : Nat × Option String} :
    ∀ {evs : List Evento} {j : Nat}, posUltimo k evs = some j →
      (∃ e, evs.get? j = some e ∧ casaChave e k = true) ∧
      ∀ (j2 : Nat) (e2 : Evento), j < j2 → evs.get? j2 = some e2 → casaChave e2 k = false := by
  intro evs
  induction evs with
  | nil => intro j h; simp [posUltimo] at h
  | cons e0 t ih =>
    intro j h
    simp only [posUltimo] at h
    cases hpu : posUltimo k t with
    | some d =>
      rw [hpu] at h
      simp at h
      subst h
      obtain ⟨⟨e, he, hce⟩, hlater⟩ := ih hpu
      refine ⟨⟨e, by simpa using he, hce⟩, ?_⟩
      intro j2 e2 hlt hj2
      cases j2 with
      | zero => omega
      | succ j3 =>
        simp only [List.get?_cons_succ] at hj2
        exact hlater j3 e2 (by omega) hj2
    | none =>
      rw [hpu] at h
      by_cases hc : casaChave e0 k = true
      · rw [if_pos hc] at h
        simp at h
        subst h
        refine ⟨⟨e0, rfl, hc⟩, ?_⟩
        intro j2 e2 hlt hj2
        cases j2 with
        | zero => omega
        | succ j3 =>
          simp only [List.get?_cons_succ] at hj2
          exact posUltimo_none hpu j3 e2 hj2
      · rw [if_neg (by simpa using hc)] at h
        simp at h

theorem posUltimo_ge {k : Nat × Option String} :
    ∀ {evs : List Evento} {i : Nat} {e : Evento},
      evs.get? i = some e → casaChave e k = true →
      ∃ j, posUltimo k evs = some j ∧ i ≤ j := by
  intro evs
  induction evs with
  | nil => intro i e hi _; simp at hi
  | cons e0 t ih =>
    intro i e hi hc
    cases i with
    | zero =>
      simp at hi
      subst hi
      simp only [posUltimo]
      cases hpu : posUltimo k t with
      | some d => exact ⟨d + 1, rfl, by omega⟩
      | none => exact ⟨0, by rw [if_pos hc], le_refl 0⟩
    | succ i2 =>
      simp only [List.get?_cons_succ] at hi
      obtain ⟨j2, hj2, hij⟩ := ih hi hc
      exact ⟨j2 + 1, by simp only [posUltimo, hj2], by omega⟩

/-- For a qualifying event, the post-processor's "not the last index" test is
equivalent to the claim's "another OUT event with the same (page, label)
appears later". -/
theorem filtra_keep_iff {evs : List Evento} {i : Nat} {ev : Evento}
    (hi : evs.get? i = some ev)
    (hq : ev.tipo = Tipo.OUT ∧ rotuloPermitido ev.label = false) :
    (((lastIdxFold evs).lookup (ev.pag, ev.label)).getD i ≠ i ↔
      temDuplicataPosterior evs i ev = true) := by
  have hc : casaChave ev (ev.pag, ev.label) = true := by
    simp [casaChave, hq.1, hq.2]
  obtain ⟨j, hj, hij⟩ := posUltimo_ge hi hc
  have hl : (lastIdxFold evs).lookup (ev.pag, ev.label) = some j := by
    unfold lastIdxFold
    rw [List.enum_eq_enumFrom, lookup_lastIdx, hj]
    simp
  rw [hl]
  simp only [Option.getD_some]
  constructor
  · intro hne
    obtain ⟨⟨e2, hje, hce2⟩, hlater⟩ := posUltimo_some hj
    unfold temDuplicataPosterior
    rw [List.any_eq_true]
    refine ⟨e2, ?_, ?_⟩
    · rw [List.mem_iff_get?]
      refine ⟨j - (i + 1), ?_⟩
      rw [List.get?_drop]
      have hji : i + 1 + (j - (i + 1)) = j := by omega
      rw [hji]
      exact hje
    · simp only [casaChave, Bool.and_eq_true, beq_iff_eq] at hce2
      obtain ⟨⟨h1, _⟩, h3⟩ := hce2
      have hpp : e2.pag = ev.pag := by
        have := congrArg Prod.fst h3
        simpa using this
      have hll : e2.label = ev.label := by
        have := congrArg Prod.snd h3
        simpa using this
      simp [Bool.and_eq_true, beq_iff_eq, h1, hpp, hll]
  · intro hdup
    unfold temDuplicataPosterior at hdup
    rw [List.any_eq_true] at hdup
    obtain ⟨e2, hmem, hpred⟩ := hdup
    rw [List.mem_iff_get?] at hmem
    obtain ⟨d, hd⟩ := hmem
    rw [List.get?_drop] at hd
    simp only [Bool.and_eq_true, beq_iff_eq] at hpred
    obtain ⟨⟨ht2, hp2⟩, hl2⟩ := hpred
    have hce2 : casaChave e2 (ev.pag, ev.label) = true := by
      simp [casaChave, ht2, hp2, hl2, hq.2]
    obtain ⟨-, hlater⟩ := posUltimo_some hj
    intro hji
    have hgt : j < i + 1 + d := by omega
    have hf := hlater (i + 1 + d) e2 hgt hd
    rw [hf] at hce2
    exact Bool.false_ne_true hce2

/-- C3: the post-processor drops an OUT event exactly when its label is not
in the allow-list (which contains exactly "DECISÃO DA PRESIDÊNCIA") and
another OUT event with the same `(page, label)` pair appears later; for every
non-allow-listed key exactly the last occurrence survives, while allow-listed
OUT events and all CUT events always survive, in their original relative
order (both sides are order-preserving filters of the same list). -/
theorem claim_C3 (evs : List Evento) : filtraDuplicados evs = dedupSpec evs := by
  unfold filtraDuplicados dedupSpec
  apply List.filterMap_congr
  intro p hp
  obtain ⟨i, ev⟩ := p
  dsimp only
  rw [List.enum_eq_enumFrom] at hp
  have h3 := List.mem_enumFrom hp
  have hi : evs.get? i = some ev := by
    have hlt : i < evs.length := by
      have := h3.2.1
      simpa using this
    have hev : ev = evs[i] := by simpa using h3.2.2
    rw [List.get?_eq_getElem?]
    rw [List.getElem?_eq_some]
    exact ⟨hlt, hev.symm⟩
  by_cases hq : ev.tipo = Tipo.OUT ∧ rotuloPermitido ev.label = false
  · have hiff := filtra_keep_iff hi hq
    by_cases hd : temDuplicataPosterior evs i ev = true
    · rw [if_pos hq,
        if_pos (show ((lastIdxFold evs).lookup (ev.pag, ev.label)).getD i ≠ i from
          hiff.mpr hd),
        if_pos (show ev.tipo = Tipo.OUT ∧ rotuloPermitido ev.label = false ∧
            temDuplicataPosterior evs i ev = true from ⟨hq.1, hq.2, hd⟩)]
    · rw [if_pos hq,
        if_neg (show ¬(((lastIdxFold evs).lookup (ev.pag, ev.label)).getD i ≠ i) from
          fun hne => hd (hiff.mp hne)),
        if_neg (show ¬(ev.tipo = Tipo.OUT ∧ rotuloPermitido ev.label = false ∧
            temDuplicataPosterior evs i ev = true) from fun hx => hd hx.2.2)]
  · rw [if_neg hq,
      if_neg (show ¬(ev.tipo = Tipo.OUT ∧ rotuloPermitido ev.label = false ∧
          temDuplicataPosterior evs i ev = true) from fun hx => hq ⟨hx.1, hx.2.1⟩)]

end Mate
